import Mathlib

/-!
# Transactions-list validator of taiko-client

A shallow embedding of `pkg/tx_list_validator/tx_list_validator.go`.

* `uint64` values are natural numbers; the one arithmetic operation the source performs on
  them (`sumGasLimit += tx.Gas()`) is reduced modulo `2 ^ 64`.
* `int` is the 64-bit signed integer of the platforms the client is built for; the conversion
  `int(x)` of a `uint64` is `toInt`.
* A `*big.Int` is `Option Int` (`none` is the nil pointer).
* A byte slice is a `List Nat`; the nil slice and the empty slice are both `[]`.
* The three library calls of the source (`encoding.UnpackTxListBytes`, `rlp.DecodeBytes`,
  `types.Sender` under `types.LatestSignerForChainID`) and the accessor `tx.Gas()` are the fields
  of `Codec`.
* `ValidateTxList`, `isTxListValid` and `checkTxsFrom` compute the returned values; the same
  code with the memory it can reach (the validator behind the receiver pointer and the logger's
  output) is `ValidateTxListS`, `isTxListValidS` and `checkTxsFromS`, and `ValidateTxListS_spec`
  relates the two.
-/

namespace TxListValidation

/-- A `*big.Int`: the nil pointer or an integer. -/
abbrev BigInt := Option Int

/-- A `common.Address`, its 20 bytes read as a number; `common.Address{}` is `0`. -/
abbrev Address := Nat

/-- The Go type `InvalidTxListReason`, a `uint8`. -/
abbrev InvalidTxListReason := Nat

def HintOK : InvalidTxListReason := 0
def HintBinaryTooLarge : InvalidTxListReason := 1
def HintBinaryNotDecodable : InvalidTxListReason := 2
def HintBlockTooManyTxs : InvalidTxListReason := 3
def HintBlockGasLimitTooLarge : InvalidTxListReason := 4
def HintTxInvalidSig : InvalidTxListReason := 5
def HintTxGasLimitTooSmall : InvalidTxListReason := 6

/-- The struct `TxListValidator`; the four limits are `uint64` fields. -/
structure TxListValidator where
  blockMaxGasLimit : Nat
  blockMaxTxs : Nat
  txListMaxBytes : Nat
  txMinGasLimit : Nat
  chainID : BigInt
deriving DecidableEq, Repr

/-- The four limits are values of type `uint64`. -/
def TxListValidator.isUint64 (v : TxListValidator) : Prop :=
  v.blockMaxGasLimit < 2 ^ 64 ∧ v.blockMaxTxs < 2 ^ 64 ∧
    v.txListMaxBytes < 2 ^ 64 ∧ v.txMinGasLimit < 2 ^ 64

instance (v : TxListValidator) : Decidable v.isUint64 := by
  unfold TxListValidator.isUint64; infer_instance

/-- The function `NewTxListValidator`. -/
def NewTxListValidator (blockMaxGasLimit blockMaxTxs txListMaxBytes txMinGasLimit : Nat)
    (chainID : BigInt) : TxListValidator :=
  { blockMaxGasLimit := blockMaxGasLimit
    blockMaxTxs := blockMaxTxs
    txListMaxBytes := txListMaxBytes
    txMinGasLimit := txMinGasLimit
    chainID := chainID }

/-- The library calls the validator consumes, over a type `Tx` of decoded transactions and a
type `Err` of Go errors.

* `UnpackTxListBytes` is `encoding.UnpackTxListBytes`;
* `DecodeBytes` is `rlp.DecodeBytes(txListBytes, &txs)` for `txs : types.Transactions`;
* `Sender chainID tx` is `types.Sender(types.LatestSignerForChainID(chainID), tx)`;
* `Gas` is `tx.Gas()`, a `uint64`. -/
structure Codec (Tx Err : Type) where
  UnpackTxListBytes : List Nat → Except Err (List Nat)
  DecodeBytes : List Nat → Except Err (List Tx)
  Sender : BigInt → Tx → Except Err Address
  Gas : Tx → Nat

/-- Every gas limit the codec reports is a value of type `uint64`. -/
def Codec.gasIsUint64 {Tx Err : Type} (c : Codec Tx Err) : Prop :=
  ∀ tx : Tx, c.Gas tx < 2 ^ 64

/-- The conversion `int(x)` of a `uint64` to the 64-bit `int`: the same 64 bits read in two's
complement. -/
def toInt (x : Nat) : Int :=
  if x % 2 ^ 64 < 2 ^ 63 then ((x % 2 ^ 64 : Nat) : Int)
  else ((x % 2 ^ 64 : Nat) : Int) - 2 ^ 64

/-- The first loop of `isTxListValid`: `sumGasLimit += tx.Gas()` over the decoded list, in
`uint64` arithmetic, starting from `acc`. -/
def sumGasLimitFrom {Tx Err : Type} (c : Codec Tx Err) : Nat → List Tx → Nat
  | acc, [] => acc
  | acc, tx :: rest => sumGasLimitFrom c ((acc + c.Gas tx) % 2 ^ 64) rest

/-- The value of `sumGasLimit` after the first loop of `isTxListValid`. -/
def sumGasLimit {Tx Err : Type} (c : Codec Tx Err) (txs : List Tx) : Nat :=
  sumGasLimitFrom c 0 txs

/-- The exact sum of the gas limits of a decoded list. -/
def exactGasSum {Tx Err : Type} (c : Codec Tx Err) (txs : List Tx) : Nat :=
  (txs.map c.Gas).sum

/-- The second loop of `isTxListValid`, `for i, tx := range txs`, entered at index `i` with
the transactions from `i` on still to visit; the value after the loop is `(HintOK, 0)`. -/
def checkTxsFrom {Tx Err : Type} (c : Codec Tx Err) (v : TxListValidator) :
    Int → List Tx → InvalidTxListReason × Int
  | _, [] => (HintOK, 0)
  | i, tx :: rest =>
    match c.Sender v.chainID tx with
    | .error _ => (HintTxInvalidSig, i)
    | .ok sender =>
      if sender = 0 then (HintTxInvalidSig, i)
      else if c.Gas tx < v.txMinGasLimit then (HintTxGasLimitTooSmall, i)
      else checkTxsFrom c v (i + 1) rest

/-- The method `isTxListValid`. -/
def isTxListValid {Tx Err : Type} (c : Codec Tx Err) (v : TxListValidator)
    (_blockID : BigInt) (txListBytes : List Nat) : InvalidTxListReason × Int :=
  if (txListBytes.length : Int) > toInt v.txListMaxBytes then (HintBinaryTooLarge, 0)
  else
    match c.DecodeBytes txListBytes with
    | .error _ => (HintBinaryNotDecodable, 0)
    | .ok txs =>
      if (txs.length : Int) > toInt v.blockMaxTxs then (HintBlockTooManyTxs, 0)
      else if sumGasLimit c txs > v.blockMaxGasLimit then (HintBlockGasLimitTooLarge, 0)
      else checkTxsFrom c v 0 txs

/-- The method `ValidateTxList`; the result is `(txListBytes, hint, txIdx, err)`, a nil `err`
being `none`. -/
def ValidateTxList {Tx Err : Type} (c : Codec Tx Err) (v : TxListValidator)
    (blockID : BigInt) (proposeBlockTxInput : List Nat) :
    List Nat × InvalidTxListReason × Int × Option Err :=
  match c.UnpackTxListBytes proposeBlockTxInput with
  | .error err => ([], HintBinaryNotDecodable, 0, some err)
  | .ok txListBytes =>
    if txListBytes.length = 0 then (txListBytes, HintOK, 0, none)
    else
      ((txListBytes, (isTxListValid c v blockID txListBytes).1,
        (isTxListValid c v blockID txListBytes).2, none))

/-- The sender of `tx` is recovered without error and is not the zero address: the negation
of the test `err != nil || sender == (common.Address{})` of the second loop. -/
def senderOK {Tx Err : Type} (c : Codec Tx Err) (v : TxListValidator) (tx : Tx) : Prop :=
  match c.Sender v.chainID tx with
  | .ok sender => sender ≠ 0
  | .error _ => False

instance {Tx Err : Type} (c : Codec Tx Err) (v : TxListValidator) (tx : Tx) :
    Decidable (senderOK c v tx) := by
  unfold senderOK; split <;> infer_instance

/-- The transaction passes both tests of the second loop: its sender is recovered and is not
the zero address, and its gas limit is at least `txMinGasLimit`. -/
def txOK {Tx Err : Type} (c : Codec Tx Err) (v : TxListValidator) (tx : Tx) : Prop :=
  senderOK c v tx ∧ v.txMinGasLimit ≤ c.Gas tx

instance {Tx Err : Type} (c : Codec Tx Err) (v : TxListValidator) (tx : Tx) :
    Decidable (txOK c v tx) := by
  unfold txOK; infer_instance

/-- The byte sequence is non-empty and goes through the first four stages of `isTxListValid`
without being rejected, `txs` being the decoded list: each conjunct is the negation of the test
the source performs at that stage. -/
def passesStages {Tx Err : Type} (c : Codec Tx Err) (v : TxListValidator)
    (txListBytes : List Nat) (txs : List Tx) : Prop :=
  txListBytes ≠ [] ∧
    ¬ ((txListBytes.length : Int) > toInt v.txListMaxBytes) ∧
    c.DecodeBytes txListBytes = .ok txs ∧
    ¬ ((txs.length : Int) > toInt v.blockMaxTxs) ∧
    ¬ (sumGasLimit c txs > v.blockMaxGasLimit)

/-! ## The method with the memory it can reach

`ValidateTxList` is a method on the pointer `v *TxListValidator` and writes to the process-wide
logger. The definitions below pass that memory along explicitly: every `log.Info` and
`log.Debug` call of the source appends a record, and the limits are read from the validator held
in the state at the point where the source reads the field. -/

/-- A record written by a log call of `isTxListValid`, with the values the call is given; the
constructors follow the eight calls in source order. -/
inductive LogRecord (Err : Type) where
  | binaryTooLarge (length : Int) (blockID : BigInt)
  | decodeFailed (blockID : BigInt) (err : Err)
  | decoded (blockID : BigInt) (length : Int)
  | tooManyTxs (blockID : BigInt) (count : Int)
  | gasLimitTooLarge (blockID : BigInt) (sumGasLimit : Nat)
  | invalidSignature (err : Option Err)
  | gasLimitTooSmall (gasLimit : Nat)
  | listValid (blockID : BigInt)
deriving DecidableEq

/-- The memory a call can reach: the validator behind the receiver pointer and what the logger
has written so far. -/
structure ProgState (Err : Type) where
  validator : TxListValidator
  logs : List (LogRecord Err)

/-- A log call: the record is appended to the logger's output. -/
def emit {Err : Type} (r : LogRecord Err) (s : ProgState Err) : ProgState Err :=
  { s with logs := s.logs ++ [r] }

/-- The second loop of `isTxListValid` with its log calls, entered at index `i`; `chainID` is
the identifier the signer was built from before the loop, and after the loop the source logs
that the list is valid and returns `(HintOK, 0)`. -/
def checkTxsFromS {Tx Err : Type} (c : Codec Tx Err) (chainID blockID : BigInt) :
    Int → List Tx → ProgState Err → (InvalidTxListReason × Int) × ProgState Err
  | _, [], s => ((HintOK, 0), emit (.listValid blockID) s)
  | i, tx :: rest, s =>
    match c.Sender chainID tx with
    | .error err => ((HintTxInvalidSig, i), emit (.invalidSignature (some err)) s)
    | .ok sender =>
      if sender = 0 then ((HintTxInvalidSig, i), emit (.invalidSignature none) s)
      else if c.Gas tx < s.validator.txMinGasLimit then
        ((HintTxGasLimitTooSmall, i), emit (.gasLimitTooSmall (c.Gas tx)) s)
      else checkTxsFromS c chainID blockID (i + 1) rest s

/-- The method `isTxListValid` with its log calls. -/
def isTxListValidS {Tx Err : Type} (c : Codec Tx Err) (blockID : BigInt)
    (txListBytes : List Nat) (s : ProgState Err) :
    (InvalidTxListReason × Int) × ProgState Err :=
  if (txListBytes.length : Int) > toInt s.validator.txListMaxBytes then
    ((HintBinaryTooLarge, 0), emit (.binaryTooLarge txListBytes.length blockID) s)
  else
    match c.DecodeBytes txListBytes with
    | .error err => ((HintBinaryNotDecodable, 0), emit (.decodeFailed blockID err) s)
    | .ok txs =>
      if (txs.length : Int) > toInt (emit (.decoded blockID txs.length) s).validator.blockMaxTxs
      then
        ((HintBlockTooManyTxs, 0),
          emit (.tooManyTxs blockID txs.length) (emit (.decoded blockID txs.length) s))
      else if sumGasLimit c txs >
          (emit (.decoded blockID txs.length) s).validator.blockMaxGasLimit then
        ((HintBlockGasLimitTooLarge, 0),
          emit (.gasLimitTooLarge blockID (sumGasLimit c txs))
            (emit (.decoded blockID txs.length) s))
      else
        checkTxsFromS c (emit (.decoded blockID txs.length) s).validator.chainID blockID 0 txs
          (emit (.decoded blockID txs.length) s)

/-- The method `ValidateTxList` with the memory it can reach: the verdict
`(txListBytes, hint, txIdx, err)` and the memory after the call. -/
def ValidateTxListS {Tx Err : Type} (c : Codec Tx Err) (blockID : BigInt)
    (proposeBlockTxInput : List Nat) (s : ProgState Err) :
    (List Nat × InvalidTxListReason × Int × Option Err) × ProgState Err :=
  match c.UnpackTxListBytes proposeBlockTxInput with
  | .error err => (([], HintBinaryNotDecodable, 0, some err), s)
  | .ok txListBytes =>
    if txListBytes.length = 0 then ((txListBytes, HintOK, 0, none), s)
    else
      ((txListBytes, (isTxListValidS c blockID txListBytes s).1.1,
          (isTxListValidS c blockID txListBytes s).1.2, none),
        (isTxListValidS c blockID txListBytes s).2)

/-! ## Concrete data used to evaluate the model -/

/-- A decoded transaction of the test codec: its gas limit and the address its signature
recovers to (`none` when recovery fails). -/
structure TestTx where
  gas : Nat
  sender : Option Address
deriving DecidableEq, Repr

/-- A test codec: extraction is `unpack`, every byte sequence decodes to `decoded`, sender
recovery reads the `sender` field (error `1` when there is none) whatever the chain. -/
def testCodec (unpack : List Nat → Except Nat (List Nat))
    (decoded : Except Nat (List TestTx)) : Codec TestTx Nat where
  UnpackTxListBytes := unpack
  DecodeBytes := fun _ => decoded
  Sender := fun _ tx =>
    match tx.sender with
    | some a => .ok a
    | none => .error 1
  Gas := fun tx => tx.gas

/-- The configuration of the concrete scenario of the specification. -/
def scenarioValidator : TxListValidator :=
  NewTxListValidator 100000 2 1000 21000 (some 1)

/-- The extraction of the test codec that always succeeds and returns its input. -/
def unpackAll (input : List Nat) : Except Nat (List Nat) := .ok input

/-- The extraction of the test codec that always fails, with error `3`. -/
def unpackNone (_input : List Nat) : Except Nat (List Nat) := .error 3

/-- The two transactions of the concrete scenario: gas limits 30000 and 21000, both senders
recovered and not zero. -/
def scenarioTxs : List TestTx := [⟨30000, some 7⟩, ⟨21000, some 8⟩]

/-- Two signed transactions whose gas limits are `2 ^ 63` each. -/
def hugeGasTxs : List TestTx := [⟨2 ^ 63, some 7⟩, ⟨2 ^ 63, some 8⟩]

/-- A transaction with a recovered sender and a gas limit below 21000, followed by one whose
sender cannot be recovered. -/
def smallGasThenBadSig : List TestTx := [⟨20000, some 7⟩, ⟨30000, none⟩]

/-- The scenario's first transaction followed by one with gas limit 20000. -/
def secondTooSmall : List TestTx := [⟨30000, some 7⟩, ⟨20000, some 8⟩]

/-- The scenario's first transaction followed by one that recovers to the zero address and has
gas limit 20000. -/
def secondBadSigAndSmall : List TestTx := [⟨30000, some 7⟩, ⟨20000, some 0⟩]

/-- The scenario's first transaction followed by one whose sender cannot be recovered. -/
def secondBadSig : List TestTx := [⟨30000, some 7⟩, ⟨21000, none⟩]

/-- Three transactions, the third unsigned and with gas limit 1. -/
def threeTxs : List TestTx := [⟨30000, some 7⟩, ⟨21000, some 8⟩, ⟨1, none⟩]

/-- The scenario's configuration with the byte limit raised to `2 ^ 63`. -/
def largeByteLimitValidator : TxListValidator :=
  NewTxListValidator 100000 2 (2 ^ 63) 21000 (some 1)

/-- A sender recovery that reads the `sender` field under chain identifier 1 and fails with
error `9` under every other chain identifier. -/
def senderOnChainOne (chainID : BigInt) (tx : TestTx) : Except Nat Address :=
  if chainID = some 1 then
    match tx.sender with
    | some a => .ok a
    | none => .error 1
  else .error 9

/-- The seven reasons, in the order of their declaration. -/
def allReasons : List InvalidTxListReason :=
  [HintOK, HintBinaryTooLarge, HintBinaryNotDecodable, HintBlockTooManyTxs,
    HintBlockGasLimitTooLarge, HintTxInvalidSig, HintTxGasLimitTooSmall]

/-- The scenario's configuration with the byte limit raised to `2 ^ 64 - 1`, the largest
`uint64`. -/
def maxByteLimitValidator : TxListValidator :=
  NewTxListValidator 100000 2 (2 ^ 64 - 1) 21000 (some 1)

/-- The scenario's configuration with the count limit raised to `2 ^ 63`. -/
def largeCountLimitValidator : TxListValidator :=
  NewTxListValidator 100000 (2 ^ 63) 1000 21000 (some 1)

/-- Two signed transactions whose gas limits, 60000 and 50000, sum to 110000. -/
def heavyTxs : List TestTx := [⟨60000, some 7⟩, ⟨50000, some 8⟩]

/-- Two signed transactions whose gas limits, 60000 and 40000, sum to exactly 100000. -/
def exactLimitTxs : List TestTx := [⟨60000, some 7⟩, ⟨40000, some 8⟩]

/-- A memory with the scenario's validator and nothing logged yet. -/
def freshState : ProgState Nat := ⟨scenarioValidator, []⟩

/-- A memory with the scenario's validator after earlier calls have logged two records. -/
def usedState : ProgState Nat :=
  ⟨scenarioValidator, [.listValid (some 4), .gasLimitTooSmall 20000]⟩

/-! ## Lemmas on the conversion and the two loops -/

theorem toInt_le (x : Nat) : toInt x ≤ (x : Int) := by
  unfold toInt
  have h : x % 2 ^ 64 ≤ x := Nat.mod_le _ _
  split <;> omega

theorem toInt_of_lt (x : Nat) (h : x < 2 ^ 63) : toInt x = (x : Int) := by
  unfold toInt
  have h1 : x % 2 ^ 64 = x := Nat.mod_eq_of_lt (by omega)
  rw [h1, if_pos h]

theorem toInt_neg_of_ge (x : Nat) (h1 : 2 ^ 63 ≤ x) (h2 : x < 2 ^ 64) : toInt x < 0 := by
  unfold toInt
  have h3 : x % 2 ^ 64 = x := Nat.mod_eq_of_lt h2
  rw [h3, if_neg (by omega)]
  omega

theorem sumGasLimitFrom_eq {Tx Err : Type} (c : Codec Tx Err) (txs : List Tx) (acc : Nat) :
    sumGasLimitFrom c acc txs % 2 ^ 64 = (acc + exactGasSum c txs) % 2 ^ 64 := by
  induction txs generalizing acc with
  | nil => simp [sumGasLimitFrom, exactGasSum]
  | cons tx rest ih =>
    simp only [sumGasLimitFrom, exactGasSum, List.map_cons, List.sum_cons]
    rw [ih]
    simp only [exactGasSum]
    omega

theorem sumGasLimitFrom_lt {Tx Err : Type} (c : Codec Tx Err) (txs : List Tx) (acc : Nat)
    (h : acc < 2 ^ 64) : sumGasLimitFrom c acc txs < 2 ^ 64 := by
  induction txs generalizing acc with
  | nil => simpa [sumGasLimitFrom] using h
  | cons tx rest ih =>
    simp only [sumGasLimitFrom]
    exact ih _ (Nat.mod_lt _ (by norm_num))

theorem sumGasLimit_eq_mod {Tx Err : Type} (c : Codec Tx Err) (txs : List Tx) :
    sumGasLimit c txs = exactGasSum c txs % 2 ^ 64 := by
  have h1 := sumGasLimitFrom_eq c txs 0
  have h2 := sumGasLimitFrom_lt c txs 0 (by norm_num)
  unfold sumGasLimit
  rw [Nat.mod_eq_of_lt h2] at h1
  simpa using h1

theorem sumGasLimit_le_exact {Tx Err : Type} (c : Codec Tx Err) (txs : List Tx) :
    sumGasLimit c txs ≤ exactGasSum c txs := by
  rw [sumGasLimit_eq_mod]
  exact Nat.mod_le _ _

theorem checkTxsFrom_cons_ok {Tx Err : Type} (c : Codec Tx Err) (v : TxListValidator)
    (i : Int) (tx : Tx) (rest : List Tx) (h : txOK c v tx) :
    checkTxsFrom c v i (tx :: rest) = checkTxsFrom c v (i + 1) rest := by
  obtain ⟨hs, hg⟩ := h
  unfold senderOK at hs
  rw [checkTxsFrom]
  split at hs
  · rename_i sender heq
    simp only [heq]
    rw [if_neg hs, if_neg (by omega)]
  · exact hs.elim

theorem checkTxsFrom_cons_badSender {Tx Err : Type} (c : Codec Tx Err) (v : TxListValidator)
    (i : Int) (tx : Tx) (rest : List Tx) (h : ¬ senderOK c v tx) :
    checkTxsFrom c v i (tx :: rest) = (HintTxInvalidSig, i) := by
  unfold senderOK at h
  rw [checkTxsFrom]
  split at h
  · rename_i sender heq
    simp only [heq]
    rw [if_pos (not_not.mp h)]
  · rename_i e heq
    simp only [heq]

theorem checkTxsFrom_cons_smallGas {Tx Err : Type} (c : Codec Tx Err) (v : TxListValidator)
    (i : Int) (tx : Tx) (rest : List Tx) (hs : senderOK c v tx)
    (hg : c.Gas tx < v.txMinGasLimit) :
    checkTxsFrom c v i (tx :: rest) = (HintTxGasLimitTooSmall, i) := by
  unfold senderOK at hs
  rw [checkTxsFrom]
  split at hs
  · rename_i sender heq
    simp only [heq]
    rw [if_neg hs, if_pos hg]
  · exact hs.elim

theorem checkTxsFrom_append {Tx Err : Type} (c : Codec Tx Err) (v : TxListValidator)
    (pre rest : List Tx) (i : Int) (h : ∀ tx ∈ pre, txOK c v tx) :
    checkTxsFrom c v i (pre ++ rest) = checkTxsFrom c v (i + pre.length) rest := by
  induction pre generalizing i with
  | nil => simp
  | cons tx pre ih =>
    rw [List.cons_append, checkTxsFrom_cons_ok c v i tx _ (h tx (List.mem_cons_self _ _)),
      ih (i + 1) (fun t ht => h t (List.mem_cons_of_mem _ ht))]
    congr 1
    simp only [List.length_cons]
    push_cast
    ring

theorem checkTxsFrom_all_ok {Tx Err : Type} (c : Codec Tx Err) (v : TxListValidator)
    (txs : List Tx) (i : Int) (h : ∀ tx ∈ txs, txOK c v tx) :
    checkTxsFrom c v i txs = (HintOK, 0) := by
  have := checkTxsFrom_append c v txs [] i h
  simpa [checkTxsFrom] using this

/-- A list cut at a valid position `k`: the transactions before `k`, the one at `k`, the
rest. -/
theorem split_at_position {Tx : Type} (txs : List Tx) (k : Nat) (hk : k < txs.length) :
    txs = txs.take k ++ txs[k] :: txs.drop (k + 1) := by
  rw [← List.drop_eq_getElem_cons hk, List.take_append_drop]

/-- The value `ValidateTxList` returns once extraction has produced a non-empty sequence that
passes the first four stages: the verdict of the second loop. -/
theorem ValidateTxList_of_passesStages {Tx Err : Type} (c : Codec Tx Err)
    (v : TxListValidator) (blockID : BigInt) (input txListBytes : List Nat) (txs : List Tx)
    (hx : c.UnpackTxListBytes input = .ok txListBytes)
    (hp : passesStages c v txListBytes txs) :
    ValidateTxList c v blockID input =
      (txListBytes, (checkTxsFrom c v 0 txs).1, (checkTxsFrom c v 0 txs).2, none) := by
  obtain ⟨hne, hsize, hdec, hcount, hgas⟩ := hp
  have hlen : ¬ txListBytes.length = 0 := by
    intro h0
    exact hne (List.length_eq_zero.mp h0)
  simp only [ValidateTxList, hx, if_neg hlen, isTxListValid, if_neg hsize, hdec, if_neg hcount,
    if_neg hgas]

/-! ## What the first four stages do when the byte and count limits are below `2 ^ 63` -/

theorem passesStages_of_valid {Tx Err : Type} (c : Codec Tx Err) (v : TxListValidator)
    (txListBytes : List Nat) (txs : List Tx) (hne : txListBytes ≠ [])
    (hb : v.txListMaxBytes < 2 ^ 63) (ht : v.blockMaxTxs < 2 ^ 63)
    (hlen : txListBytes.length ≤ v.txListMaxBytes)
    (hdec : c.DecodeBytes txListBytes = .ok txs)
    (hcount : txs.length ≤ v.blockMaxTxs)
    (hsum : exactGasSum c txs ≤ v.blockMaxGasLimit) :
    passesStages c v txListBytes txs := by
  refine ⟨hne, ?_, hdec, ?_, ?_⟩
  · rw [toInt_of_lt _ hb]; omega
  · rw [toInt_of_lt _ ht]; omega
  · have := sumGasLimit_le_exact c txs
    omega

/-- A fully valid non-empty list is accepted when the byte and count limits are below
`2 ^ 63`. -/
theorem ValidateTxList_fully_valid_of_small_limits {Tx Err : Type} (c : Codec Tx Err)
    (v : TxListValidator) (blockID : BigInt) (input txListBytes : List Nat) (txs : List Tx)
    (hx : c.UnpackTxListBytes input = .ok txListBytes) (hne : txListBytes ≠ [])
    (hb : v.txListMaxBytes < 2 ^ 63) (ht : v.blockMaxTxs < 2 ^ 63)
    (hlen : txListBytes.length ≤ v.txListMaxBytes)
    (hdec : c.DecodeBytes txListBytes = .ok txs)
    (hcount : txs.length ≤ v.blockMaxTxs)
    (hsum : exactGasSum c txs ≤ v.blockMaxGasLimit)
    (hall : ∀ tx ∈ txs, txOK c v tx) :
    ValidateTxList c v blockID input = (txListBytes, HintOK, 0, none) := by
  rw [ValidateTxList_of_passesStages c v blockID input txListBytes txs hx
    (passesStages_of_valid c v txListBytes txs hne hb ht hlen hdec hcount hsum),
    checkTxsFrom_all_ok c v txs 0 hall]

/-- An exact gas sum above `blockMaxGasLimit` is rejected when it is below `2 ^ 64` and the
byte and count limits are below `2 ^ 63`. -/
theorem ValidateTxList_gas_too_large_of_no_wrap {Tx Err : Type} (c : Codec Tx Err)
    (v : TxListValidator) (blockID : BigInt) (input txListBytes : List Nat) (txs : List Tx)
    (hx : c.UnpackTxListBytes input = .ok txListBytes) (hne : txListBytes ≠ [])
    (hb : v.txListMaxBytes < 2 ^ 63) (ht : v.blockMaxTxs < 2 ^ 63)
    (hlen : txListBytes.length ≤ v.txListMaxBytes)
    (hdec : c.DecodeBytes txListBytes = .ok txs)
    (hcount : txs.length ≤ v.blockMaxTxs)
    (hnowrap : exactGasSum c txs < 2 ^ 64)
    (hsum : exactGasSum c txs > v.blockMaxGasLimit) :
    ValidateTxList c v blockID input = (txListBytes, HintBlockGasLimitTooLarge, 0, none) := by
  have h0 : ¬ txListBytes.length = 0 := fun h => hne (List.length_eq_zero.mp h)
  have h1 : ¬ ((txListBytes.length : Int) > toInt v.txListMaxBytes) := by
    rw [toInt_of_lt _ hb]; omega
  have h2 : ¬ ((txs.length : Int) > toInt v.blockMaxTxs) := by
    rw [toInt_of_lt _ ht]; omega
  have h3 : sumGasLimit c txs > v.blockMaxGasLimit := by
    rw [sumGasLimit_eq_mod, Nat.mod_eq_of_lt hnowrap]; exact hsum
  simp only [ValidateTxList, hx, if_neg h0, isTxListValid, if_neg h1, hdec, if_neg h2, if_pos h3]

/-- A non-empty sequence within the byte limit that does not decode is answered with
`HintBinaryNotDecodable` when the byte limit is below `2 ^ 63`. -/
theorem ValidateTxList_not_decodable_of_small_limit {Tx Err : Type} (c : Codec Tx Err)
    (v : TxListValidator) (blockID : BigInt) (input txListBytes : List Nat) (err : Err)
    (hx : c.UnpackTxListBytes input = .ok txListBytes) (hne : txListBytes ≠ [])
    (hb : v.txListMaxBytes < 2 ^ 63)
    (hlen : txListBytes.length ≤ v.txListMaxBytes)
    (hdec : c.DecodeBytes txListBytes = .error err) :
    ValidateTxList c v blockID input = (txListBytes, HintBinaryNotDecodable, 0, none) := by
  have h0 : ¬ txListBytes.length = 0 := fun h => hne (List.length_eq_zero.mp h)
  have h1 : ¬ ((txListBytes.length : Int) > toInt v.txListMaxBytes) := by
    rw [toInt_of_lt _ hb]; omega
  simp only [ValidateTxList, hx, if_neg h0, isTxListValid, if_neg h1, hdec]

/-- A non-empty sequence within the byte limit that decodes to more than `blockMaxTxs`
transactions is answered with `HintBlockTooManyTxs` when the byte limit is below `2 ^ 63`,
whatever the codec says of the individual transactions. -/
theorem ValidateTxList_too_many_txs_of_small_limit {Tx Err : Type} (c : Codec Tx Err)
    (v : TxListValidator) (blockID : BigInt) (input txListBytes : List Nat) (txs : List Tx)
    (hx : c.UnpackTxListBytes input = .ok txListBytes) (hne : txListBytes ≠ [])
    (hb : v.txListMaxBytes < 2 ^ 63)
    (hlen : txListBytes.length ≤ v.txListMaxBytes)
    (hdec : c.DecodeBytes txListBytes = .ok txs)
    (hcount : txs.length > v.blockMaxTxs) :
    ValidateTxList c v blockID input = (txListBytes, HintBlockTooManyTxs, 0, none) := by
  have h0 : ¬ txListBytes.length = 0 := fun h => hne (List.length_eq_zero.mp h)
  have h1 : ¬ ((txListBytes.length : Int) > toInt v.txListMaxBytes) := by
    rw [toInt_of_lt _ hb]; omega
  have h2 : (txs.length : Int) > toInt v.blockMaxTxs := by
    have := toInt_le v.blockMaxTxs
    omega
  simp only [ValidateTxList, hx, if_neg h0, isTxListValid, if_neg h1, hdec, if_pos h2]

/-! ## The claims -/

/-- C1: a fully valid non-empty list is to be accepted for every `uint64` value of the four
limits. With the byte limit `2 ^ 63` the scenario's two valid transactions (3 bytes, within
every limit, both senders recovered and not zero, gas limits at least 21000) are answered with
`HintBinaryTooLarge`: `int(v.txListMaxBytes)` is negative there. -/
theorem valid_list_rejected_at_byte_limit_two_pow_63 :
    largeByteLimitValidator.isUint64 ∧
      (testCodec unpackAll (.ok scenarioTxs)).UnpackTxListBytes [1, 2, 3] = .ok [1, 2, 3] ∧
      [1, 2, 3].length ≤ largeByteLimitValidator.txListMaxBytes ∧
      (testCodec unpackAll (.ok scenarioTxs)).DecodeBytes [1, 2, 3] = .ok scenarioTxs ∧
      scenarioTxs.length ≤ largeByteLimitValidator.blockMaxTxs ∧
      exactGasSum (testCodec unpackAll (.ok scenarioTxs)) scenarioTxs ≤
        largeByteLimitValidator.blockMaxGasLimit ∧
      (∀ tx ∈ scenarioTxs,
        txOK (testCodec unpackAll (.ok scenarioTxs)) largeByteLimitValidator tx) ∧
      toInt largeByteLimitValidator.txListMaxBytes = -(2 ^ 63) ∧
      ValidateTxList (testCodec unpackAll (.ok scenarioTxs)) largeByteLimitValidator (some 5)
        [1, 2, 3] = ([1, 2, 3], HintBinaryTooLarge, 0, none) := by
  refine ⟨by decide, rfl, by decide, rfl, by decide, by decide, by decide, by decide, by decide⟩

/-- C2: a list whose exact gas sum exceeds `blockMaxGasLimit` is to be answered with
`HintBlockGasLimitTooLarge`, the sum never wrapping. Under the scenario's configuration two
signed transactions of gas limit `2 ^ 63` each have exact sum `2 ^ 64`, above 100000; the
`uint64` accumulator holds 0 after the loop and the list is answered with `HintOK`. -/
theorem gas_sum_wraps_and_list_is_accepted :
    scenarioValidator.isUint64 ∧
      (∀ tx ∈ hugeGasTxs, (testCodec unpackAll (.ok hugeGasTxs)).Gas tx < 2 ^ 64) ∧
      (testCodec unpackAll (.ok hugeGasTxs)).UnpackTxListBytes [1, 2, 3] = .ok [1, 2, 3] ∧
      [1, 2, 3].length ≤ scenarioValidator.txListMaxBytes ∧
      (testCodec unpackAll (.ok hugeGasTxs)).DecodeBytes [1, 2, 3] = .ok hugeGasTxs ∧
      hugeGasTxs.length ≤ scenarioValidator.blockMaxTxs ∧
      exactGasSum (testCodec unpackAll (.ok hugeGasTxs)) hugeGasTxs = 2 ^ 64 ∧
      exactGasSum (testCodec unpackAll (.ok hugeGasTxs)) hugeGasTxs >
        scenarioValidator.blockMaxGasLimit ∧
      sumGasLimit (testCodec unpackAll (.ok hugeGasTxs)) hugeGasTxs = 0 ∧
      ValidateTxList (testCodec unpackAll (.ok hugeGasTxs)) scenarioValidator (some 5)
        [1, 2, 3] = ([1, 2, 3], HintOK, 0, none) := by
  refine ⟨by decide, by decide, rfl, by decide, rfl, by decide, by decide, by decide, by decide,
    by decide⟩

/-- C3, as stated, fails: under the scenario's configuration the list `smallGasThenBadSig`
passes the first four stages and position 1 is the smallest position whose sender is not
recovered, yet the verdict is `HintTxGasLimitTooSmall` at index 0, because the transaction at
position 0 has gas limit 20000, below 21000. -/
theorem first_bad_sig_preceded_by_small_gas :
    (testCodec unpackAll (.ok smallGasThenBadSig)).UnpackTxListBytes [1, 2, 3] = .ok [1, 2, 3] ∧
      passesStages (testCodec unpackAll (.ok smallGasThenBadSig)) scenarioValidator [1, 2, 3]
        smallGasThenBadSig ∧
      (∀ tx ∈ smallGasThenBadSig.take 1,
        senderOK (testCodec unpackAll (.ok smallGasThenBadSig)) scenarioValidator tx) ∧
      smallGasThenBadSig[1]? = some ⟨30000, none⟩ ∧
      ¬ senderOK (testCodec unpackAll (.ok smallGasThenBadSig)) scenarioValidator
        ⟨30000, none⟩ ∧
      ValidateTxList (testCodec unpackAll (.ok smallGasThenBadSig)) scenarioValidator (some 5)
        [1, 2, 3] = ([1, 2, 3], HintTxGasLimitTooSmall, 0, none) ∧
      ValidateTxList (testCodec unpackAll (.ok smallGasThenBadSig)) scenarioValidator (some 5)
        [1, 2, 3] ≠ ([1, 2, 3], HintTxInvalidSig, 1, none) := by
  refine ⟨rfl, ⟨by decide, by decide, rfl, by decide, by decide⟩, by decide, by decide,
    by decide, by decide, by decide⟩

/-- C3, amended: for a list that passes the size, decode, count and aggregate-gas stages, if
`k` is the smallest position whose sender is not recovered or is the zero address, and every
transaction before `k` has gas limit at least `txMinGasLimit`, then `ValidateTxList` returns the
input bytes, `HintTxInvalidSig` and `k`; every other list that passes the four stages and has
the same transactions up to and including position `k` gets the same reason and index. -/
theorem ValidateTxList_first_invalid_sig {Tx Err : Type} (c : Codec Tx Err)
    (v : TxListValidator) (blockID : BigInt) (input txListBytes : List Nat) (txs : List Tx)
    (k : Nat) (hk : k < txs.length)
    (hx : c.UnpackTxListBytes input = .ok txListBytes)
    (hp : passesStages c v txListBytes txs)
    (hsmallest : ∀ tx ∈ txs.take k, senderOK c v tx)
    (hgas : ∀ tx ∈ txs.take k, v.txMinGasLimit ≤ c.Gas tx)
    (hbad : ¬ senderOK c v txs[k]) :
    ValidateTxList c v blockID input = (txListBytes, HintTxInvalidSig, (k : Int), none) ∧
      ∀ (blockID2 : BigInt) (input2 txListBytes2 : List Nat) (txs2 : List Tx),
        c.UnpackTxListBytes input2 = .ok txListBytes2 →
        passesStages c v txListBytes2 txs2 →
        txs2.take (k + 1) = txs.take (k + 1) →
        ValidateTxList c v blockID2 input2 = (txListBytes2, HintTxInvalidSig, (k : Int), none) := by
  have hpre : ∀ tx ∈ txs.take k, txOK c v tx := fun tx h => ⟨hsmallest tx h, hgas tx h⟩
  have hlenk : ((txs.take k).length : Int) = k := by
    rw [List.length_take]; congr 1; omega
  have key : ∀ suffix : List Tx,
      checkTxsFrom c v 0 (txs.take k ++ txs[k] :: suffix) = (HintTxInvalidSig, (k : Int)) := by
    intro suffix
    rw [checkTxsFrom_append c v _ _ 0 hpre, checkTxsFrom_cons_badSender c v _ _ _ hbad, hlenk,
      zero_add]
  constructor
  · rw [ValidateTxList_of_passesStages c v blockID input txListBytes txs hx hp]
    have h := key (txs.drop (k + 1))
    rw [← split_at_position txs k hk] at h
    rw [h]
  · intro blockID2 input2 txListBytes2 txs2 hx2 hp2 hsame
    rw [ValidateTxList_of_passesStages c v blockID2 input2 txListBytes2 txs2 hx2 hp2]
    have hhead : txs.take (k + 1) = txs.take k ++ [txs[k]] := by
      rw [List.take_succ, List.getElem?_eq_getElem hk]
      rfl
    have hcut : txs2 = txs.take k ++ txs[k] :: txs2.drop (k + 1) := by
      calc txs2 = txs2.take (k + 1) ++ txs2.drop (k + 1) := (List.take_append_drop _ _).symm
        _ = txs.take k ++ txs[k] :: txs2.drop (k + 1) := by
          rw [hsame, hhead, List.append_assoc, List.singleton_append]
    have h := key (txs2.drop (k + 1))
    rw [← hcut] at h
    rw [h]

theorem ValidateTxList_first_invalid_sig_witness :
    passesStages (testCodec unpackAll (.ok secondBadSig)) scenarioValidator [1, 2, 3]
        secondBadSig ∧
      (∀ tx ∈ secondBadSig.take 1,
        senderOK (testCodec unpackAll (.ok secondBadSig)) scenarioValidator tx) ∧
      (∀ tx ∈ secondBadSig.take 1, scenarioValidator.txMinGasLimit ≤ tx.gas) ∧
      ¬ senderOK (testCodec unpackAll (.ok secondBadSig)) scenarioValidator ⟨21000, none⟩ ∧
      ValidateTxList (testCodec unpackAll (.ok secondBadSig)) scenarioValidator (some 5)
        [1, 2, 3] = ([1, 2, 3], HintTxInvalidSig, 1, none) :=
  ⟨⟨by decide, by decide, rfl, by decide, by decide⟩, by decide, by decide, by decide,
    (ValidateTxList_first_invalid_sig (testCodec unpackAll (.ok secondBadSig))
      scenarioValidator (some 5) [1, 2, 3] [1, 2, 3] secondBadSig 1 (by decide) rfl
      ⟨by decide, by decide, rfl, by decide, by decide⟩ (by decide) (by decide)
      (by decide)).1⟩

/-- C4: for a list that passes the size, decode, count and aggregate-gas stages, if every
transaction before position `k` has a recovered non-zero sender and gas limit at least
`txMinGasLimit`, and the transaction at `k` has a recovered non-zero sender and gas limit below
`txMinGasLimit`, then `ValidateTxList` returns the input bytes, `HintTxGasLimitTooSmall` and
`k`. -/
theorem ValidateTxList_first_gas_too_small {Tx Err : Type} (c : Codec Tx Err)
    (v : TxListValidator) (blockID : BigInt) (input txListBytes : List Nat) (txs : List Tx)
    (k : Nat) (hk : k < txs.length)
    (hx : c.UnpackTxListBytes input = .ok txListBytes)
    (hp : passesStages c v txListBytes txs)
    (hpre : ∀ tx ∈ txs.take k, senderOK c v tx ∧ v.txMinGasLimit ≤ c.Gas tx)
    (hsender : senderOK c v txs[k])
    (hsmall : c.Gas txs[k] < v.txMinGasLimit) :
    ValidateTxList c v blockID input =
      (txListBytes, HintTxGasLimitTooSmall, (k : Int), none) := by
  have hlenk : ((txs.take k).length : Int) = k := by
    rw [List.length_take]; congr 1; omega
  rw [ValidateTxList_of_passesStages c v blockID input txListBytes txs hx hp]
  have h : checkTxsFrom c v 0 (txs.take k ++ txs[k] :: txs.drop (k + 1)) =
      (HintTxGasLimitTooSmall, (k : Int)) := by
    rw [checkTxsFrom_append c v _ _ 0 hpre,
      checkTxsFrom_cons_smallGas c v _ _ _ hsender hsmall, hlenk, zero_add]
  rw [← split_at_position txs k hk] at h
  rw [h]

theorem ValidateTxList_first_gas_too_small_witness :
    passesStages (testCodec unpackAll (.ok secondTooSmall)) scenarioValidator [1, 2, 3]
        secondTooSmall ∧
      (∀ tx ∈ secondTooSmall.take 1,
        senderOK (testCodec unpackAll (.ok secondTooSmall)) scenarioValidator tx ∧
          scenarioValidator.txMinGasLimit ≤ tx.gas) ∧
      senderOK (testCodec unpackAll (.ok secondTooSmall)) scenarioValidator ⟨20000, some 8⟩ ∧
      ValidateTxList (testCodec unpackAll (.ok secondTooSmall)) scenarioValidator (some 5)
        [1, 2, 3] = ([1, 2, 3], HintTxGasLimitTooSmall, 1, none) :=
  ⟨⟨by decide, by decide, rfl, by decide, by decide⟩, by decide, by decide,
    ValidateTxList_first_gas_too_small (testCodec unpackAll (.ok secondTooSmall))
      scenarioValidator (some 5) [1, 2, 3] [1, 2, 3] secondTooSmall 1 (by decide) rfl
      ⟨by decide, by decide, rfl, by decide, by decide⟩ (by decide) (by decide) (by decide)⟩

/-- C5: the signature check runs before the gas-floor check. For a list that passes the
earlier stages, if every transaction before position `k` passes both checks and the transaction
at `k` has both a sender that is not recovered or is zero and a gas limit below `txMinGasLimit`,
the reason is `HintTxInvalidSig`, the index is `k`, and the reason is not
`HintTxGasLimitTooSmall`. -/
theorem ValidateTxList_sig_before_gas_floor {Tx Err : Type} (c : Codec Tx Err)
    (v : TxListValidator) (blockID : BigInt) (input txListBytes : List Nat) (txs : List Tx)
    (k : Nat) (hk : k < txs.length)
    (hx : c.UnpackTxListBytes input = .ok txListBytes)
    (hp : passesStages c v txListBytes txs)
    (hpre : ∀ tx ∈ txs.take k, senderOK c v tx ∧ v.txMinGasLimit ≤ c.Gas tx)
    (hbad : ¬ senderOK c v txs[k])
    (_hsmall : c.Gas txs[k] < v.txMinGasLimit) :
    ValidateTxList c v blockID input = (txListBytes, HintTxInvalidSig, (k : Int), none) ∧
      (ValidateTxList c v blockID input).2.1 ≠ HintTxGasLimitTooSmall := by
  have hlenk : ((txs.take k).length : Int) = k := by
    rw [List.length_take]; congr 1; omega
  have h : checkTxsFrom c v 0 (txs.take k ++ txs[k] :: txs.drop (k + 1)) =
      (HintTxInvalidSig, (k : Int)) := by
    rw [checkTxsFrom_append c v _ _ 0 hpre, checkTxsFrom_cons_badSender c v _ _ _ hbad, hlenk,
      zero_add]
  rw [← split_at_position txs k hk] at h
  rw [ValidateTxList_of_passesStages c v blockID input txListBytes txs hx hp, h]
  refine ⟨rfl, ?_⟩
  show HintTxInvalidSig ≠ HintTxGasLimitTooSmall
  decide

theorem ValidateTxList_sig_before_gas_floor_witness :
    passesStages (testCodec unpackAll (.ok secondBadSigAndSmall)) scenarioValidator [1, 2, 3]
        secondBadSigAndSmall ∧
      ¬ senderOK (testCodec unpackAll (.ok secondBadSigAndSmall)) scenarioValidator
        ⟨20000, some 0⟩ ∧
      ValidateTxList (testCodec unpackAll (.ok secondBadSigAndSmall)) scenarioValidator (some 5)
        [1, 2, 3] = ([1, 2, 3], HintTxInvalidSig, 1, none) ∧
      (ValidateTxList (testCodec unpackAll (.ok secondBadSigAndSmall)) scenarioValidator
        (some 5) [1, 2, 3]).2.1 ≠ HintTxGasLimitTooSmall :=
  ⟨⟨by decide, by decide, rfl, by decide, by decide⟩, by decide,
    ValidateTxList_sig_before_gas_floor (testCodec unpackAll (.ok secondBadSigAndSmall))
      scenarioValidator (some 5) [1, 2, 3] [1, 2, 3] secondBadSigAndSmall 1 (by decide) rfl
      ⟨by decide, by decide, rfl, by decide, by decide⟩ (by decide) (by decide) (by decide)⟩

/-- C7: a non-empty sequence within the byte limit that does not decode is to be answered
with `HintBinaryNotDecodable` for every configuration. With the byte limit `2 ^ 63` a 3-byte
sequence that does not decode is answered with `HintBinaryTooLarge`. -/
theorem undecodable_list_rejected_as_too_large :
    largeByteLimitValidator.isUint64 ∧
      (testCodec unpackAll (.error 2)).UnpackTxListBytes [1, 2, 3] = .ok [1, 2, 3] ∧
      [1, 2, 3].length ≤ largeByteLimitValidator.txListMaxBytes ∧
      (testCodec unpackAll (.error 2)).DecodeBytes [1, 2, 3] = .error 2 ∧
      ValidateTxList (testCodec unpackAll (.error 2)) largeByteLimitValidator (some 5)
        [1, 2, 3] = ([1, 2, 3], HintBinaryTooLarge, 0, none) := by
  refine ⟨by decide, rfl, by decide, rfl, by decide⟩

/-- C8: a sequence within the byte limit that decodes to more than `blockMaxTxs` transactions
is to be answered with `HintBlockTooManyTxs`. With the byte limit `2 ^ 63` and at most 2
transactions allowed, a 3-byte sequence decoding to 3 transactions is answered with
`HintBinaryTooLarge`. -/
theorem too_many_txs_rejected_as_too_large :
    largeByteLimitValidator.isUint64 ∧
      (testCodec unpackAll (.ok threeTxs)).UnpackTxListBytes [1, 2, 3] = .ok [1, 2, 3] ∧
      [1, 2, 3].length ≤ largeByteLimitValidator.txListMaxBytes ∧
      (testCodec unpackAll (.ok threeTxs)).DecodeBytes [1, 2, 3] = .ok threeTxs ∧
      threeTxs.length > largeByteLimitValidator.blockMaxTxs ∧
      ValidateTxList (testCodec unpackAll (.ok threeTxs)) largeByteLimitValidator (some 5)
        [1, 2, 3] = ([1, 2, 3], HintBinaryTooLarge, 0, none) := by
  refine ⟨by decide, rfl, by decide, rfl, by decide, by decide⟩

/-- C9: when extraction succeeds and yields the empty byte sequence, `ValidateTxList` returns
the empty bytes, `HintOK`, index 0 and a nil error, for every configuration and every decoder
and sender-recovery capability. -/
theorem ValidateTxList_empty {Tx Err : Type} (c : Codec Tx Err) (v : TxListValidator)
    (blockID : BigInt) (input : List Nat) (hx : c.UnpackTxListBytes input = .ok []) :
    ValidateTxList c v blockID input = ([], HintOK, 0, none) := by
  simp [ValidateTxList, hx]

theorem ValidateTxList_empty_witness :
    (testCodec unpackAll (.error 2)).UnpackTxListBytes [] = .ok [] ∧
      ValidateTxList (testCodec unpackAll (.error 2)) (NewTxListValidator 0 0 0 0 none)
        (some 5) [] = ([], HintOK, 0, none) :=
  ⟨rfl, ValidateTxList_empty _ _ _ _ rfl⟩

/-- C10: when the extraction step `UnpackTxListBytes` fails, `ValidateTxList` returns nil
bytes, `HintBinaryNotDecodable` and index 0 (together with the extraction error). -/
theorem ValidateTxList_unpack_error {Tx Err : Type} (c : Codec Tx Err) (v : TxListValidator)
    (blockID : BigInt) (input : List Nat) (err : Err)
    (hx : c.UnpackTxListBytes input = .error err) :
    ValidateTxList c v blockID input = ([], HintBinaryNotDecodable, 0, some err) := by
  simp [ValidateTxList, hx]

theorem ValidateTxList_unpack_error_witness :
    (testCodec unpackNone (.ok scenarioTxs)).UnpackTxListBytes [1, 2, 3] = .error 3 ∧
      ValidateTxList (testCodec unpackNone (.ok scenarioTxs)) scenarioValidator (some 5)
        [1, 2, 3] = ([], HintBinaryNotDecodable, 0, some 3) :=
  ⟨rfl, ValidateTxList_unpack_error _ _ _ _ _ rfl⟩

/-- C6: an extracted byte sequence longer than `txListMaxBytes` is answered with the input
bytes, `HintBinaryTooLarge`, index 0 and a nil error, for every configuration and every
decoder, whether or not the bytes decode. -/
theorem ValidateTxList_binary_too_large {Tx Err : Type} (c : Codec Tx Err)
    (v : TxListValidator) (blockID : BigInt) (input txListBytes : List Nat)
    (hx : c.UnpackTxListBytes input = .ok txListBytes)
    (hlen : txListBytes.length > v.txListMaxBytes) :
    ValidateTxList c v blockID input = (txListBytes, HintBinaryTooLarge, 0, none) := by
  have h0 : ¬ txListBytes.length = 0 := by omega
  have h1 : (txListBytes.length : Int) > toInt v.txListMaxBytes := by
    have := toInt_le v.txListMaxBytes
    omega
  simp only [ValidateTxList, hx, if_neg h0, isTxListValid, if_pos h1]

theorem ValidateTxList_binary_too_large_witness :
    (testCodec unpackAll (.ok scenarioTxs)).UnpackTxListBytes [1, 2, 3] = .ok [1, 2, 3] ∧
      [1, 2, 3].length > (NewTxListValidator 100000 2 2 21000 (some 1)).txListMaxBytes ∧
      ValidateTxList (testCodec unpackAll (.ok scenarioTxs))
        (NewTxListValidator 100000 2 2 21000 (some 1)) (some 5) [1, 2, 3] =
        ([1, 2, 3], HintBinaryTooLarge, 0, none) :=
  ⟨rfl, by decide, ValidateTxList_binary_too_large _ _ _ _ _ rfl (by decide)⟩

/-! ## The possible outcomes of the two functions -/

/-- The three ways the second loop ends: every transaction passes; a first transaction fails
the sender test; a first transaction passes the sender test and fails the gas test. -/
theorem checkTxsFrom_cases {Tx Err : Type} (c : Codec Tx Err) (v : TxListValidator)
    (txs : List Tx) (i : Int) :
    (checkTxsFrom c v i txs = (HintOK, 0) ∧ ∀ tx ∈ txs, txOK c v tx) ∨
      (∃ (k : Nat) (t : Tx), txs[k]? = some t ∧ (∀ tx ∈ txs.take k, txOK c v tx) ∧
        ¬ senderOK c v t ∧ checkTxsFrom c v i txs = (HintTxInvalidSig, i + k)) ∨
      (∃ (k : Nat) (t : Tx), txs[k]? = some t ∧ (∀ tx ∈ txs.take k, txOK c v tx) ∧
        senderOK c v t ∧ c.Gas t < v.txMinGasLimit ∧
        checkTxsFrom c v i txs = (HintTxGasLimitTooSmall, i + k)) := by
  induction txs generalizing i with
  | nil => exact Or.inl ⟨rfl, fun _ h => absurd h (List.not_mem_nil _)⟩
  | cons tx rest ih =>
    by_cases hs : senderOK c v tx
    · by_cases hg : c.Gas tx < v.txMinGasLimit
      · refine Or.inr (Or.inr ⟨0, tx, by simp, ?_, hs, hg, ?_⟩)
        · intro t ht
          simp at ht
        · rw [checkTxsFrom_cons_smallGas c v i tx rest hs hg]
          simp
      · have hok : txOK c v tx := ⟨hs, Nat.le_of_not_lt hg⟩
        rw [checkTxsFrom_cons_ok c v i tx rest hok]
        rcases ih (i + 1) with ⟨h1, h2⟩ | ⟨k, t, h1, h2, h3, h4⟩ | ⟨k, t, h1, h2, h3, h4, h5⟩
        · refine Or.inl ⟨h1, ?_⟩
          intro t ht
          rcases List.mem_cons.mp ht with rfl | ht
          · exact hok
          · exact h2 t ht
        · refine Or.inr (Or.inl ⟨k + 1, t, by simpa using h1, ?_, h3, ?_⟩)
          · intro t2 ht
            rw [List.take_succ_cons] at ht
            rcases List.mem_cons.mp ht with rfl | ht
            · exact hok
            · exact h2 t2 ht
          · rw [h4]
            congr 1
            push_cast
            ring
        · refine Or.inr (Or.inr ⟨k + 1, t, by simpa using h1, ?_, h3, h4, ?_⟩)
          · intro t2 ht
            rw [List.take_succ_cons] at ht
            rcases List.mem_cons.mp ht with rfl | ht
            · exact hok
            · exact h2 t2 ht
          · rw [h5]
            congr 1
            push_cast
            ring
    · refine Or.inr (Or.inl ⟨0, tx, by simp, ?_, hs, ?_⟩)
      · intro t ht
        simp at ht
      · rw [checkTxsFrom_cons_badSender c v i tx rest hs]
        simp

/-- The five ways `isTxListValid` ends, each with the tests that led there. -/
theorem isTxListValid_cases {Tx Err : Type} (c : Codec Tx Err) (v : TxListValidator)
    (blockID : BigInt) (txListBytes : List Nat) :
    ((txListBytes.length : Int) > toInt v.txListMaxBytes ∧
        isTxListValid c v blockID txListBytes = (HintBinaryTooLarge, 0)) ∨
      (¬ ((txListBytes.length : Int) > toInt v.txListMaxBytes) ∧
        (∃ err, c.DecodeBytes txListBytes = .error err) ∧
        isTxListValid c v blockID txListBytes = (HintBinaryNotDecodable, 0)) ∨
      (∃ txs, ¬ ((txListBytes.length : Int) > toInt v.txListMaxBytes) ∧
        c.DecodeBytes txListBytes = .ok txs ∧ (txs.length : Int) > toInt v.blockMaxTxs ∧
        isTxListValid c v blockID txListBytes = (HintBlockTooManyTxs, 0)) ∨
      (∃ txs, ¬ ((txListBytes.length : Int) > toInt v.txListMaxBytes) ∧
        c.DecodeBytes txListBytes = .ok txs ∧ ¬ ((txs.length : Int) > toInt v.blockMaxTxs) ∧
        sumGasLimit c txs > v.blockMaxGasLimit ∧
        isTxListValid c v blockID txListBytes = (HintBlockGasLimitTooLarge, 0)) ∨
      (∃ txs, ¬ ((txListBytes.length : Int) > toInt v.txListMaxBytes) ∧
        c.DecodeBytes txListBytes = .ok txs ∧ ¬ ((txs.length : Int) > toInt v.blockMaxTxs) ∧
        ¬ (sumGasLimit c txs > v.blockMaxGasLimit) ∧
        isTxListValid c v blockID txListBytes = checkTxsFrom c v 0 txs) := by
  by_cases h1 : (txListBytes.length : Int) > toInt v.txListMaxBytes
  · exact Or.inl ⟨h1, by simp only [isTxListValid, if_pos h1]⟩
  · cases hdec : c.DecodeBytes txListBytes with
    | error err =>
      exact Or.inr (Or.inl ⟨h1, ⟨err, rfl⟩, by simp only [isTxListValid, if_neg h1, hdec]⟩)
    | ok txs =>
      by_cases h2 : (txs.length : Int) > toInt v.blockMaxTxs
      · exact Or.inr (Or.inr (Or.inl ⟨txs, h1, rfl, h2,
          by simp only [isTxListValid, if_neg h1, hdec, if_pos h2]⟩))
      · by_cases h3 : sumGasLimit c txs > v.blockMaxGasLimit
        · exact Or.inr (Or.inr (Or.inr (Or.inl ⟨txs, h1, rfl, h2, h3,
            by simp only [isTxListValid, if_neg h1, hdec, if_neg h2, if_pos h3]⟩)))
        · exact Or.inr (Or.inr (Or.inr (Or.inr ⟨txs, h1, rfl, h2, h3,
            by simp only [isTxListValid, if_neg h1, hdec, if_neg h2, if_neg h3]⟩)))

/-- The three ways `ValidateTxList` ends. -/
theorem ValidateTxList_cases {Tx Err : Type} (c : Codec Tx Err) (v : TxListValidator)
    (blockID : BigInt) (input : List Nat) :
    (∃ err, c.UnpackTxListBytes input = .error err ∧
        ValidateTxList c v blockID input = ([], HintBinaryNotDecodable, 0, some err)) ∨
      (c.UnpackTxListBytes input = .ok [] ∧
        ValidateTxList c v blockID input = ([], HintOK, 0, none)) ∨
      (∃ txListBytes, txListBytes ≠ [] ∧ c.UnpackTxListBytes input = .ok txListBytes ∧
        ValidateTxList c v blockID input =
          (txListBytes, (isTxListValid c v blockID txListBytes).1,
            (isTxListValid c v blockID txListBytes).2, none)) := by
  cases hx : c.UnpackTxListBytes input with
  | error err => exact Or.inl ⟨err, rfl, by simp only [ValidateTxList, hx]⟩
  | ok txListBytes =>
    by_cases h0 : txListBytes = []
    · subst h0
      exact Or.inr (Or.inl ⟨rfl, by simp [ValidateTxList, hx]⟩)
    · have hlen : ¬ txListBytes.length = 0 := fun h => h0 (List.length_eq_zero.mp h)
      exact Or.inr (Or.inr ⟨txListBytes, h0, rfl,
        by simp only [ValidateTxList, hx, if_neg hlen]⟩)

theorem checkTxsFrom_reason_mem {Tx Err : Type} (c : Codec Tx Err) (v : TxListValidator)
    (txs : List Tx) (i : Int) : (checkTxsFrom c v i txs).1 ∈ allReasons := by
  rcases checkTxsFrom_cases c v txs i with ⟨h, _⟩ | ⟨k, t, _, _, _, h⟩ | ⟨k, t, _, _, _, _, h⟩ <;>
    rw [h] <;> simp [allReasons]

theorem isTxListValid_reason_mem {Tx Err : Type} (c : Codec Tx Err) (v : TxListValidator)
    (blockID : BigInt) (txListBytes : List Nat) :
    (isTxListValid c v blockID txListBytes).1 ∈ allReasons := by
  rcases isTxListValid_cases c v blockID txListBytes with
    ⟨_, h⟩ | ⟨_, _, h⟩ | ⟨txs, _, _, _, h⟩ | ⟨txs, _, _, _, _, h⟩ | ⟨txs, _, _, _, _, h⟩
  · rw [h]; simp [allReasons]
  · rw [h]; simp [allReasons]
  · rw [h]; simp [allReasons]
  · rw [h]; simp [allReasons]
  · rw [h]; exact checkTxsFrom_reason_mem c v txs 0

theorem checkTxsFrom_index_zero {Tx Err : Type} (c : Codec Tx Err) (v : TxListValidator)
    (txs : List Tx) (i : Int) (h1 : (checkTxsFrom c v i txs).1 ≠ HintTxInvalidSig)
    (h2 : (checkTxsFrom c v i txs).1 ≠ HintTxGasLimitTooSmall) :
    (checkTxsFrom c v i txs).2 = 0 := by
  rcases checkTxsFrom_cases c v txs i with ⟨h, _⟩ | ⟨k, t, _, _, _, h⟩ | ⟨k, t, _, _, _, _, h⟩
  · rw [h]
  · rw [h] at h1; exact absurd rfl h1
  · rw [h] at h2; exact absurd rfl h2

theorem isTxListValid_index_zero {Tx Err : Type} (c : Codec Tx Err) (v : TxListValidator)
    (blockID : BigInt) (txListBytes : List Nat)
    (h1 : (isTxListValid c v blockID txListBytes).1 ≠ HintTxInvalidSig)
    (h2 : (isTxListValid c v blockID txListBytes).1 ≠ HintTxGasLimitTooSmall) :
    (isTxListValid c v blockID txListBytes).2 = 0 := by
  rcases isTxListValid_cases c v blockID txListBytes with
    ⟨_, h⟩ | ⟨_, _, h⟩ | ⟨txs, _, _, _, h⟩ | ⟨txs, _, _, _, _, h⟩ | ⟨txs, _, _, _, _, h⟩
  · rw [h]
  · rw [h]
  · rw [h]
  · rw [h]
  · rw [h] at h1 h2 ⊢
    exact checkTxsFrom_index_zero c v txs 0 h1 h2

/-! ## The claims on the error, the reasons, the index and the inputs -/

/-- C11: `ValidateTxList` returns a non-nil error exactly when the extraction step fails, the
error is then the extraction error, and whenever extraction succeeds the error is nil, whatever
the reason. -/
theorem ValidateTxList_error_iff_unpack_fails {Tx Err : Type} (c : Codec Tx Err)
    (v : TxListValidator) (blockID : BigInt) (input : List Nat) :
    ((ValidateTxList c v blockID input).2.2.2 ≠ none ↔
        ∃ err, c.UnpackTxListBytes input = .error err) ∧
      (ValidateTxList c v blockID input).2.2.2 =
        (match c.UnpackTxListBytes input with
          | .error err => some err
          | .ok _ => none) := by
  rcases ValidateTxList_cases c v blockID input with
    ⟨err, hx, h⟩ | ⟨hx, h⟩ | ⟨txListBytes, _, hx, h⟩
  · rw [h, hx]
    exact ⟨⟨fun _ => ⟨err, rfl⟩, fun _ => by simp⟩, rfl⟩
  · rw [h, hx]
    refine ⟨⟨fun hne => absurd rfl hne, ?_⟩, rfl⟩
    rintro ⟨err, he⟩
    cases he
  · rw [h, hx]
    refine ⟨⟨fun hne => absurd rfl hne, ?_⟩, rfl⟩
    rintro ⟨err, he⟩
    cases he

/-- C12: the seven reasons are encoded 0 to 6 in the order `HintOK`, `HintBinaryTooLarge`,
`HintBinaryNotDecodable`, `HintBlockTooManyTxs`, `HintBlockGasLimitTooLarge`,
`HintTxInvalidSig`, `HintTxGasLimitTooSmall`, they are pairwise distinct, and the reason
`ValidateTxList` returns is always one of them. -/
theorem reason_encoding_and_range {Tx Err : Type} (c : Codec Tx Err) (v : TxListValidator)
    (blockID : BigInt) (input : List Nat) :
    HintOK = 0 ∧ HintBinaryTooLarge = 1 ∧ HintBinaryNotDecodable = 2 ∧
      HintBlockTooManyTxs = 3 ∧ HintBlockGasLimitTooLarge = 4 ∧ HintTxInvalidSig = 5 ∧
      HintTxGasLimitTooSmall = 6 ∧ allReasons.Nodup ∧
      (ValidateTxList c v blockID input).2.1 ∈ allReasons := by
  refine ⟨rfl, rfl, rfl, rfl, rfl, rfl, rfl, by decide, ?_⟩
  rcases ValidateTxList_cases c v blockID input with
    ⟨err, _, h⟩ | ⟨_, h⟩ | ⟨txListBytes, _, _, h⟩
  · rw [h]; simp [allReasons]
  · rw [h]; simp [allReasons]
  · rw [h]; exact isTxListValid_reason_mem c v blockID txListBytes

/-- C13: whenever the reason `ValidateTxList` returns is neither `HintTxInvalidSig` nor
`HintTxGasLimitTooSmall`, the index it returns is 0. -/
theorem ValidateTxList_index_zero {Tx Err : Type} (c : Codec Tx Err) (v : TxListValidator)
    (blockID : BigInt) (input : List Nat)
    (h1 : (ValidateTxList c v blockID input).2.1 ≠ HintTxInvalidSig)
    (h2 : (ValidateTxList c v blockID input).2.1 ≠ HintTxGasLimitTooSmall) :
    (ValidateTxList c v blockID input).2.2.1 = 0 := by
  rcases ValidateTxList_cases c v blockID input with
    ⟨err, _, h⟩ | ⟨_, h⟩ | ⟨txListBytes, _, _, h⟩
  · rw [h]
  · rw [h]
  · rw [h] at h1 h2 ⊢
    exact isTxListValid_index_zero c v blockID txListBytes h1 h2

theorem ValidateTxList_index_zero_witness :
    (ValidateTxList (testCodec unpackAll (.ok threeTxs)) scenarioValidator (some 5)
        [1, 2, 3]).2.1 = HintBlockTooManyTxs ∧
      (ValidateTxList (testCodec unpackAll (.ok threeTxs)) scenarioValidator (some 5)
        [1, 2, 3]).2.2.1 = 0 :=
  ⟨by decide,
    ValidateTxList_index_zero (testCodec unpackAll (.ok threeTxs)) scenarioValidator (some 5)
      [1, 2, 3] (by decide) (by decide)⟩

/-- C14: the block identifier has no influence on what `ValidateTxList` returns: bytes,
reason, index and error are the same for any two block identifiers. -/
theorem ValidateTxList_blockID_irrelevant {Tx Err : Type} (c : Codec Tx Err)
    (v : TxListValidator) (blockID1 blockID2 : BigInt) (input : List Nat) :
    ValidateTxList c v blockID1 input = ValidateTxList c v blockID2 input := by
  rfl

/-- C15: whenever extraction succeeds, the bytes `ValidateTxList` returns are exactly the
extracted bytes, whatever the reason. -/
theorem ValidateTxList_returns_extracted_bytes {Tx Err : Type} (c : Codec Tx Err)
    (v : TxListValidator) (blockID : BigInt) (input txListBytes : List Nat)
    (hx : c.UnpackTxListBytes input = .ok txListBytes) :
    (ValidateTxList c v blockID input).1 = txListBytes := by
  rcases ValidateTxList_cases c v blockID input with
    ⟨err, hx2, _⟩ | ⟨hx2, h⟩ | ⟨txListBytes2, _, hx2, h⟩
  · rw [hx] at hx2; cases hx2
  · rw [hx] at hx2; cases hx2; rw [h]
  · rw [hx] at hx2; cases hx2; rw [h]

theorem ValidateTxList_returns_extracted_bytes_witness :
    (testCodec unpackAll (.ok secondBadSig)).UnpackTxListBytes [1, 2, 3] = .ok [1, 2, 3] ∧
      (ValidateTxList (testCodec unpackAll (.ok secondBadSig)) scenarioValidator (some 5)
        [1, 2, 3]).2.1 = HintTxInvalidSig ∧
      (ValidateTxList (testCodec unpackAll (.ok secondBadSig)) scenarioValidator (some 5)
        [1, 2, 3]).1 = [1, 2, 3] :=
  ⟨rfl, by decide,
    ValidateTxList_returns_extracted_bytes (testCodec unpackAll (.ok secondBadSig))
      scenarioValidator (some 5) [1, 2, 3] [1, 2, 3] rfl⟩

/-- C18: `NewTxListValidator` stores each argument in the field of the same name, none of the
four limits being swapped, so that `isTxListValid` compares the byte length with the
`txListMaxBytes` argument, the count with `blockMaxTxs`, the gas sum with `blockMaxGasLimit`
and each gas limit with `txMinGasLimit`. -/
theorem NewTxListValidator_fields {Tx Err : Type} (c : Codec Tx Err)
    (blockMaxGasLimit blockMaxTxs txListMaxBytes txMinGasLimit : Nat) (chainID blockID : BigInt)
    (txListBytes : List Nat) :
    (NewTxListValidator blockMaxGasLimit blockMaxTxs txListMaxBytes txMinGasLimit
        chainID).blockMaxGasLimit = blockMaxGasLimit ∧
      (NewTxListValidator blockMaxGasLimit blockMaxTxs txListMaxBytes txMinGasLimit
        chainID).blockMaxTxs = blockMaxTxs ∧
      (NewTxListValidator blockMaxGasLimit blockMaxTxs txListMaxBytes txMinGasLimit
        chainID).txListMaxBytes = txListMaxBytes ∧
      (NewTxListValidator blockMaxGasLimit blockMaxTxs txListMaxBytes txMinGasLimit
        chainID).txMinGasLimit = txMinGasLimit ∧
      (NewTxListValidator blockMaxGasLimit blockMaxTxs txListMaxBytes txMinGasLimit
        chainID).chainID = chainID ∧
      isTxListValid c
          (NewTxListValidator blockMaxGasLimit blockMaxTxs txListMaxBytes txMinGasLimit chainID)
          blockID txListBytes =
        (if (txListBytes.length : Int) > toInt txListMaxBytes then (HintBinaryTooLarge, 0)
        else
          match c.DecodeBytes txListBytes with
          | .error _ => (HintBinaryNotDecodable, 0)
          | .ok txs =>
            if (txs.length : Int) > toInt blockMaxTxs then (HintBlockTooManyTxs, 0)
            else if sumGasLimit c txs > blockMaxGasLimit then (HintBlockGasLimitTooLarge, 0)
            else
              checkTxsFrom c
                { blockMaxGasLimit := blockMaxGasLimit, blockMaxTxs := blockMaxTxs,
                  txListMaxBytes := txListMaxBytes, txMinGasLimit := txMinGasLimit,
                  chainID := chainID } 0 txs) :=
  ⟨rfl, rfl, rfl, rfl, rfl, rfl⟩

/-! ## Dependence on the capabilities -/

theorem sumGasLimitFrom_congr {Tx Err : Type} (c1 c2 : Codec Tx Err) (txs : List Tx)
    (acc : Nat) (hG : ∀ tx ∈ txs, c1.Gas tx = c2.Gas tx) :
    sumGasLimitFrom c1 acc txs = sumGasLimitFrom c2 acc txs := by
  induction txs generalizing acc with
  | nil => rfl
  | cons tx rest ih =>
    simp only [sumGasLimitFrom]
    rw [hG tx (List.mem_cons_self _ _)]
    exact ih _ (fun t ht => hG t (List.mem_cons_of_mem _ ht))

theorem checkTxsFrom_congr {Tx Err : Type} (c1 c2 : Codec Tx Err) (v : TxListValidator)
    (txs : List Tx) (i : Int)
    (hS : ∀ tx ∈ txs, c1.Sender v.chainID tx = c2.Sender v.chainID tx)
    (hG : ∀ tx ∈ txs, c1.Gas tx = c2.Gas tx) :
    checkTxsFrom c1 v i txs = checkTxsFrom c2 v i txs := by
  induction txs generalizing i with
  | nil => rfl
  | cons tx rest ih =>
    simp only [checkTxsFrom]
    rw [hS tx (List.mem_cons_self _ _), hG tx (List.mem_cons_self _ _),
      ih (i + 1) (fun t ht => hS t (List.mem_cons_of_mem _ ht))
        (fun t ht => hG t (List.mem_cons_of_mem _ ht))]

/-- The verdict depends on the capabilities only through what they return during the call:
extraction on the payload, decoding on the extracted bytes, and sender recovery under the
validator's chain identifier and gas limit on the decoded transactions. -/
theorem ValidateTxList_congr {Tx Err : Type} (c1 c2 : Codec Tx Err) (v : TxListValidator)
    (blockID1 blockID2 : BigInt) (input : List Nat)
    (hU : c1.UnpackTxListBytes input = c2.UnpackTxListBytes input)
    (hD : ∀ txListBytes, c1.UnpackTxListBytes input = .ok txListBytes →
      c1.DecodeBytes txListBytes = c2.DecodeBytes txListBytes)
    (hS : ∀ txListBytes txs, c1.UnpackTxListBytes input = .ok txListBytes →
      c1.DecodeBytes txListBytes = .ok txs →
      ∀ tx ∈ txs, c1.Sender v.chainID tx = c2.Sender v.chainID tx)
    (hG : ∀ txListBytes txs, c1.UnpackTxListBytes input = .ok txListBytes →
      c1.DecodeBytes txListBytes = .ok txs → ∀ tx ∈ txs, c1.Gas tx = c2.Gas tx) :
    ValidateTxList c1 v blockID1 input = ValidateTxList c2 v blockID2 input := by
  cases hx : c1.UnpackTxListBytes input with
  | error err =>
    have hx2 : c2.UnpackTxListBytes input = .error err := by rw [← hU, hx]
    simp only [ValidateTxList, hx, hx2]
  | ok txListBytes =>
    have hx2 : c2.UnpackTxListBytes input = .ok txListBytes := by rw [← hU, hx]
    have hval : isTxListValid c1 v blockID1 txListBytes =
        isTxListValid c2 v blockID2 txListBytes := by
      cases hdec : c1.DecodeBytes txListBytes with
      | error e =>
        have hdec2 : c2.DecodeBytes txListBytes = .error e := by
          rw [← hD txListBytes hx, hdec]
        simp only [isTxListValid, hdec, hdec2]
      | ok txs =>
        have hdec2 : c2.DecodeBytes txListBytes = .ok txs := by
          rw [← hD txListBytes hx, hdec]
        have hsum : sumGasLimit c1 txs = sumGasLimit c2 txs :=
          sumGasLimitFrom_congr c1 c2 txs 0 (hG txListBytes txs hx hdec)
        have hloop := checkTxsFrom_congr c1 c2 v txs 0 (hS txListBytes txs hx hdec)
          (hG txListBytes txs hx hdec)
        simp only [isTxListValid, hdec, hdec2, hsum, hloop]
    simp only [ValidateTxList, hx, hx2, hval]

/-! ## The verdict and the memory -/

theorem emit_validator {Err : Type} (r : LogRecord Err) (s : ProgState Err) :
    (emit r s).validator = s.validator := rfl

theorem emit_logs {Err : Type} (r : LogRecord Err) (s : ProgState Err) :
    (emit r s).logs = s.logs ++ [r] := rfl

/-- The loop with its log calls returns what `checkTxsFrom` returns, leaves the validator as
it was, and only appends to the log. -/
theorem checkTxsFromS_spec {Tx Err : Type} (c : Codec Tx Err) (blockID : BigInt)
    (txs : List Tx) (i : Int) (s : ProgState Err) :
    (checkTxsFromS c s.validator.chainID blockID i txs s).1 = checkTxsFrom c s.validator i txs ∧
      (checkTxsFromS c s.validator.chainID blockID i txs s).2.validator = s.validator ∧
      ∃ added, (checkTxsFromS c s.validator.chainID blockID i txs s).2.logs =
        s.logs ++ added := by
  induction txs generalizing i with
  | nil => exact ⟨rfl, rfl, [_], rfl⟩
  | cons tx rest ih =>
    cases hsend : c.Sender s.validator.chainID tx with
    | error err =>
      have e1 : checkTxsFromS c s.validator.chainID blockID i (tx :: rest) s =
          ((HintTxInvalidSig, i), emit (.invalidSignature (some err)) s) := by
        simp only [checkTxsFromS, hsend]
      have e2 : checkTxsFrom c s.validator i (tx :: rest) = (HintTxInvalidSig, i) := by
        simp only [checkTxsFrom, hsend]
      rw [e1, e2]
      exact ⟨rfl, rfl, [_], rfl⟩
    | ok sender =>
      by_cases h0 : sender = 0
      · have e1 : checkTxsFromS c s.validator.chainID blockID i (tx :: rest) s =
            ((HintTxInvalidSig, i), emit (.invalidSignature none) s) := by
          simp only [checkTxsFromS, hsend, if_pos h0]
        have e2 : checkTxsFrom c s.validator i (tx :: rest) = (HintTxInvalidSig, i) := by
          simp only [checkTxsFrom, hsend, if_pos h0]
        rw [e1, e2]
        exact ⟨rfl, rfl, [_], rfl⟩
      · by_cases hg : c.Gas tx < s.validator.txMinGasLimit
        · have e1 : checkTxsFromS c s.validator.chainID blockID i (tx :: rest) s =
              ((HintTxGasLimitTooSmall, i), emit (.gasLimitTooSmall (c.Gas tx)) s) := by
            simp only [checkTxsFromS, hsend, if_neg h0, if_pos hg]
          have e2 : checkTxsFrom c s.validator i (tx :: rest) =
              (HintTxGasLimitTooSmall, i) := by
            simp only [checkTxsFrom, hsend, if_neg h0, if_pos hg]
          rw [e1, e2]
          exact ⟨rfl, rfl, [_], rfl⟩
        · have e1 : checkTxsFromS c s.validator.chainID blockID i (tx :: rest) s =
              checkTxsFromS c s.validator.chainID blockID (i + 1) rest s := by
            simp only [checkTxsFromS, hsend, if_neg h0, if_neg hg]
          have e2 : checkTxsFrom c s.validator i (tx :: rest) =
              checkTxsFrom c s.validator (i + 1) rest := by
            simp only [checkTxsFrom, hsend, if_neg h0, if_neg hg]
          rw [e1, e2]
          exact ih (i + 1)

/-- The method `isTxListValid` with its log calls returns what the function without them
returns, leaves the validator as it was, and only appends to the log. -/
theorem isTxListValidS_spec {Tx Err : Type} (c : Codec Tx Err) (blockID : BigInt)
    (txListBytes : List Nat) (s : ProgState Err) :
    (isTxListValidS c blockID txListBytes s).1 =
        isTxListValid c s.validator blockID txListBytes ∧
      (isTxListValidS c blockID txListBytes s).2.validator = s.validator ∧
      ∃ added, (isTxListValidS c blockID txListBytes s).2.logs = s.logs ++ added := by
  by_cases h1 : (txListBytes.length : Int) > toInt s.validator.txListMaxBytes
  · have e1 : isTxListValidS c blockID txListBytes s =
        ((HintBinaryTooLarge, 0), emit (.binaryTooLarge txListBytes.length blockID) s) := by
      simp only [isTxListValidS, if_pos h1]
    have e2 : isTxListValid c s.validator blockID txListBytes = (HintBinaryTooLarge, 0) := by
      simp only [isTxListValid, if_pos h1]
    rw [e1, e2]
    exact ⟨rfl, rfl, [_], rfl⟩
  · cases hdec : c.DecodeBytes txListBytes with
    | error err =>
      have e1 : isTxListValidS c blockID txListBytes s =
          ((HintBinaryNotDecodable, 0), emit (.decodeFailed blockID err) s) := by
        simp only [isTxListValidS, if_neg h1, hdec]
      have e2 : isTxListValid c s.validator blockID txListBytes =
          (HintBinaryNotDecodable, 0) := by
        simp only [isTxListValid, if_neg h1, hdec]
      rw [e1, e2]
      exact ⟨rfl, rfl, [_], rfl⟩
    | ok txs =>
      by_cases h2 : (txs.length : Int) > toInt s.validator.blockMaxTxs
      · have e1 : isTxListValidS c blockID txListBytes s =
            ((HintBlockTooManyTxs, 0),
              emit (.tooManyTxs blockID txs.length) (emit (.decoded blockID txs.length) s)) := by
          simp only [isTxListValidS, if_neg h1, hdec, emit_validator, if_pos h2]
        have e2 : isTxListValid c s.validator blockID txListBytes =
            (HintBlockTooManyTxs, 0) := by
          simp only [isTxListValid, if_neg h1, hdec, if_pos h2]
        rw [e1, e2]
        exact ⟨rfl, rfl,
          [LogRecord.decoded blockID txs.length, LogRecord.tooManyTxs blockID txs.length],
          by simp [emit_logs]⟩
      · by_cases h3 : sumGasLimit c txs > s.validator.blockMaxGasLimit
        · have e1 : isTxListValidS c blockID txListBytes s =
              ((HintBlockGasLimitTooLarge, 0),
                emit (.gasLimitTooLarge blockID (sumGasLimit c txs))
                  (emit (.decoded blockID txs.length) s)) := by
            simp only [isTxListValidS, if_neg h1, hdec, emit_validator, if_neg h2, if_pos h3]
          have e2 : isTxListValid c s.validator blockID txListBytes =
              (HintBlockGasLimitTooLarge, 0) := by
            simp only [isTxListValid, if_neg h1, hdec, if_neg h2, if_pos h3]
          rw [e1, e2]
          exact ⟨rfl, rfl,
            [LogRecord.decoded blockID txs.length,
              LogRecord.gasLimitTooLarge blockID (sumGasLimit c txs)],
            by simp [emit_logs]⟩
        · have e1 : isTxListValidS c blockID txListBytes s =
              checkTxsFromS c (emit (.decoded blockID txs.length) s).validator.chainID blockID
                0 txs (emit (.decoded blockID txs.length) s) := by
            simp only [isTxListValidS, if_neg h1, hdec, emit_validator, if_neg h2, if_neg h3]
          have e2 : isTxListValid c s.validator blockID txListBytes =
              checkTxsFrom c s.validator 0 txs := by
            simp only [isTxListValid, if_neg h1, hdec, if_neg h2, if_neg h3]
          obtain ⟨hv, hval, added, hlogs⟩ :=
            checkTxsFromS_spec c blockID txs 0 (emit (.decoded blockID txs.length) s)
          rw [e1, e2]
          refine ⟨hv, hval, LogRecord.decoded blockID txs.length :: added, ?_⟩
          rw [hlogs, emit_logs, List.append_assoc, List.singleton_append]

/-- The method with its memory returns the verdict of `ValidateTxList` on the validator it
finds in the memory, leaves that validator as it was, and only appends to the log. -/
theorem ValidateTxListS_spec {Tx Err : Type} (c : Codec Tx Err) (blockID : BigInt)
    (input : List Nat) (s : ProgState Err) :
    (ValidateTxListS c blockID input s).1 = ValidateTxList c s.validator blockID input ∧
      (ValidateTxListS c blockID input s).2.validator = s.validator ∧
      ∃ added, (ValidateTxListS c blockID input s).2.logs = s.logs ++ added := by
  cases hx : c.UnpackTxListBytes input with
  | error err =>
    have e1 : ValidateTxListS c blockID input s =
        (([], HintBinaryNotDecodable, 0, some err), s) := by
      simp only [ValidateTxListS, hx]
    have e2 : ValidateTxList c s.validator blockID input =
        ([], HintBinaryNotDecodable, 0, some err) := by
      simp only [ValidateTxList, hx]
    rw [e1, e2]
    exact ⟨rfl, rfl, [], (List.append_nil _).symm⟩
  | ok txListBytes =>
    by_cases h0 : txListBytes.length = 0
    · have e1 : ValidateTxListS c blockID input s =
          ((txListBytes, HintOK, 0, none), s) := by
        simp only [ValidateTxListS, hx, if_pos h0]
      have e2 : ValidateTxList c s.validator blockID input =
          (txListBytes, HintOK, 0, none) := by
        simp only [ValidateTxList, hx, if_pos h0]
      rw [e1, e2]
      exact ⟨rfl, rfl, [], (List.append_nil _).symm⟩
    · have e1 : ValidateTxListS c blockID input s =
          ((txListBytes, (isTxListValidS c blockID txListBytes s).1.1,
              (isTxListValidS c blockID txListBytes s).1.2, none),
            (isTxListValidS c blockID txListBytes s).2) := by
        simp only [ValidateTxListS, hx, if_neg h0]
      have e2 : ValidateTxList c s.validator blockID input =
          (txListBytes, (isTxListValid c s.validator blockID txListBytes).1,
            (isTxListValid c s.validator blockID txListBytes).2, none) := by
        simp only [ValidateTxList, hx, if_neg h0]
      obtain ⟨hv, hval, added, hlogs⟩ := isTxListValidS_spec c blockID txListBytes s
      rw [e1, e2]
      exact ⟨by rw [hv], hval, added, hlogs⟩

/-- C16: `ValidateTxList` is deterministic. With the memory a call can reach passed along
(the validator behind the receiver and the logger's output), two calls with the same
configuration, block identifier, payload and capabilities return identical verdicts whatever
the two memories hold besides the configuration; a second call made in the memory the first one
leaves behind returns the verdict of the first; and a call leaves the configuration as it
found it. -/
theorem ValidateTxListS_deterministic {Tx Err : Type} (c : Codec Tx Err) (blockID : BigInt)
    (input : List Nat) (s1 s2 : ProgState Err) (hv : s1.validator = s2.validator) :
    (ValidateTxListS c blockID input s1).1 = (ValidateTxListS c blockID input s2).1 ∧
      (ValidateTxListS c blockID input (ValidateTxListS c blockID input s1).2).1 =
        (ValidateTxListS c blockID input s1).1 ∧
      (ValidateTxListS c blockID input s1).2.validator = s1.validator := by
  obtain ⟨h1, hval1, _⟩ := ValidateTxListS_spec c blockID input s1
  obtain ⟨h2, _, _⟩ := ValidateTxListS_spec c blockID input s2
  obtain ⟨h3, _, _⟩ :=
    ValidateTxListS_spec c blockID input (ValidateTxListS c blockID input s1).2
  refine ⟨?_, ?_, hval1⟩
  · rw [h1, h2, hv]
  · rw [h3, hval1, h1]

theorem ValidateTxListS_deterministic_witness :
    freshState.validator = usedState.validator ∧ freshState.logs ≠ usedState.logs ∧
      (ValidateTxListS (testCodec unpackAll (.ok secondTooSmall)) (some 5) [1, 2, 3]
        freshState).2.logs ≠ freshState.logs ∧
      ((ValidateTxListS (testCodec unpackAll (.ok secondTooSmall)) (some 5) [1, 2, 3]
          freshState).1 =
        (ValidateTxListS (testCodec unpackAll (.ok secondTooSmall)) (some 5) [1, 2, 3]
          usedState).1 ∧
      (ValidateTxListS (testCodec unpackAll (.ok secondTooSmall)) (some 5) [1, 2, 3]
          (ValidateTxListS (testCodec unpackAll (.ok secondTooSmall)) (some 5) [1, 2, 3]
            freshState).2).1 =
        (ValidateTxListS (testCodec unpackAll (.ok secondTooSmall)) (some 5) [1, 2, 3]
          freshState).1 ∧
      (ValidateTxListS (testCodec unpackAll (.ok secondTooSmall)) (some 5) [1, 2, 3]
        freshState).2.validator = freshState.validator) :=
  ⟨rfl, by decide, by decide,
    ValidateTxListS_deterministic (testCodec unpackAll (.ok secondTooSmall)) (some 5)
      [1, 2, 3] freshState usedState rfl⟩

/-- C17: sender recovery is performed under the configured chain identifier only: replacing
the sender-recovery capability by one that agrees with it on every transaction under the
validator's `chainID` leaves the verdict unchanged, whatever the replacement returns under
other chain identifiers. -/
theorem ValidateTxList_sender_under_chainID_only {Tx Err : Type} (c : Codec Tx Err)
    (recover2 : BigInt → Tx → Except Err Address) (v : TxListValidator) (blockID : BigInt)
    (input : List Nat) (hagree : ∀ tx, c.Sender v.chainID tx = recover2 v.chainID tx) :
    ValidateTxList c v blockID input =
      ValidateTxList { c with Sender := recover2 } v blockID input :=
  ValidateTxList_congr c { c with Sender := recover2 } v blockID blockID input rfl
    (fun _ _ => rfl) (fun _ _ _ _ tx _ => hagree tx) (fun _ _ _ _ _ _ => rfl)

theorem ValidateTxList_sender_under_chainID_only_witness :
    (∀ tx, (testCodec unpackAll (.ok secondBadSig)).Sender scenarioValidator.chainID tx =
        senderOnChainOne scenarioValidator.chainID tx) ∧
      (testCodec unpackAll (.ok secondBadSig)).Sender (some 2) ⟨30000, some 7⟩ = .ok 7 ∧
      senderOnChainOne (some 2) ⟨30000, some 7⟩ = .error 9 ∧
      ValidateTxList (testCodec unpackAll (.ok secondBadSig)) scenarioValidator (some 5)
          [1, 2, 3] =
        ValidateTxList
          { testCodec unpackAll (.ok secondBadSig) with Sender := senderOnChainOne }
          scenarioValidator (some 5) [1, 2, 3] :=
  ⟨fun _ => rfl, rfl, rfl,
    ValidateTxList_sender_under_chainID_only (testCodec unpackAll (.ok secondBadSig))
      senderOnChainOne scenarioValidator (some 5) [1, 2, 3] (fun _ => rfl)⟩

/-! ## Soundness of acceptance and of the per-transaction verdicts -/

/-- C19: for a non-empty extracted byte sequence, if `ValidateTxList` returns `HintOK` then
the length is at most `txListMaxBytes`, the bytes decode to a transaction list, the list has at
most `blockMaxTxs` transactions, and every transaction has a sender recovered without error
that is not the zero address and a gas limit of at least `txMinGasLimit`. -/
theorem ValidateTxList_ok_sound {Tx Err : Type} (c : Codec Tx Err) (v : TxListValidator)
    (blockID : BigInt) (input txListBytes : List Nat)
    (hx : c.UnpackTxListBytes input = .ok txListBytes) (hne : txListBytes ≠ [])
    (hok : (ValidateTxList c v blockID input).2.1 = HintOK) :
    txListBytes.length ≤ v.txListMaxBytes ∧
      ∃ txs, c.DecodeBytes txListBytes = .ok txs ∧ txs.length ≤ v.blockMaxTxs ∧
        ∀ tx ∈ txs, senderOK c v tx ∧ v.txMinGasLimit ≤ c.Gas tx := by
  have hlen : ¬ txListBytes.length = 0 := fun h => hne (List.length_eq_zero.mp h)
  have hV : (ValidateTxList c v blockID input).2.1 =
      (isTxListValid c v blockID txListBytes).1 := by
    simp only [ValidateTxList, hx, if_neg hlen]
  rw [hV] at hok
  rcases isTxListValid_cases c v blockID txListBytes with
    ⟨_, h⟩ | ⟨_, _, h⟩ | ⟨txs, _, _, _, h⟩ | ⟨txs, _, _, _, _, h⟩ | ⟨txs, h1, hdec, h2, _, h⟩
  · rw [h] at hok; exact absurd hok (by decide)
  · rw [h] at hok; exact absurd hok (by decide)
  · rw [h] at hok; exact absurd hok (by decide)
  · rw [h] at hok; exact absurd hok (by decide)
  · rw [h] at hok
    have hb := toInt_le v.txListMaxBytes
    have ht := toInt_le v.blockMaxTxs
    refine ⟨by omega, txs, hdec, by omega, ?_⟩
    rcases checkTxsFrom_cases c v txs 0 with
      ⟨_, hall⟩ | ⟨k, t, _, _, _, h5⟩ | ⟨k, t, _, _, _, _, h6⟩
    · exact hall
    · rw [h5] at hok; simp [HintOK, HintTxInvalidSig] at hok
    · rw [h6] at hok; simp [HintOK, HintTxGasLimitTooSmall] at hok

theorem ValidateTxList_ok_sound_witness :
    (ValidateTxList (testCodec unpackAll (.ok scenarioTxs)) scenarioValidator (some 5)
        [1, 2, 3]).2.1 = HintOK ∧
      ([1, 2, 3].length ≤ scenarioValidator.txListMaxBytes ∧
        ∃ txs, (testCodec unpackAll (.ok scenarioTxs)).DecodeBytes [1, 2, 3] = .ok txs ∧
          txs.length ≤ scenarioValidator.blockMaxTxs ∧
          ∀ tx ∈ txs, senderOK (testCodec unpackAll (.ok scenarioTxs)) scenarioValidator tx ∧
            scenarioValidator.txMinGasLimit ≤
              (testCodec unpackAll (.ok scenarioTxs)).Gas tx) :=
  ⟨by decide,
    ValidateTxList_ok_sound (testCodec unpackAll (.ok scenarioTxs)) scenarioValidator (some 5)
      [1, 2, 3] [1, 2, 3] rfl (by decide) (by decide)⟩

/-- C20: whenever `ValidateTxList` returns `HintTxInvalidSig` or `HintTxGasLimitTooSmall`, the
index it returns is a position `k` of the decoded list (`0 ≤ k < len(txs)`); the transaction at
`k` has a sender that is not recovered or is zero when the reason is `HintTxInvalidSig`, and a
recovered non-zero sender with gas limit below `txMinGasLimit` when the reason is
`HintTxGasLimitTooSmall`; and every transaction before `k` has a recovered non-zero sender and
gas limit at least `txMinGasLimit`. -/
theorem ValidateTxList_per_tx_verdict_sound {Tx Err : Type} (c : Codec Tx Err)
    (v : TxListValidator) (blockID : BigInt) (input : List Nat)
    (hreason : (ValidateTxList c v blockID input).2.1 = HintTxInvalidSig ∨
      (ValidateTxList c v blockID input).2.1 = HintTxGasLimitTooSmall) :
    ∃ (txListBytes : List Nat) (txs : List Tx) (k : Nat) (t : Tx),
      c.UnpackTxListBytes input = .ok txListBytes ∧
      c.DecodeBytes txListBytes = .ok txs ∧
      (ValidateTxList c v blockID input).2.2.1 = (k : Int) ∧
      0 ≤ (ValidateTxList c v blockID input).2.2.1 ∧
      k < txs.length ∧ txs[k]? = some t ∧
      (∀ tx ∈ txs.take k, senderOK c v tx ∧ v.txMinGasLimit ≤ c.Gas tx) ∧
      ((ValidateTxList c v blockID input).2.1 = HintTxInvalidSig → ¬ senderOK c v t) ∧
      ((ValidateTxList c v blockID input).2.1 = HintTxGasLimitTooSmall →
        senderOK c v t ∧ c.Gas t < v.txMinGasLimit) := by
  have h56 : HintTxInvalidSig ≠ HintTxGasLimitTooSmall := by decide
  rcases ValidateTxList_cases c v blockID input with
    ⟨err, _, h⟩ | ⟨_, h⟩ | ⟨txListBytes, _, hx, h⟩
  · rw [h] at hreason
    simp [HintOK, HintBinaryTooLarge, HintBinaryNotDecodable, HintBlockTooManyTxs,
        HintBlockGasLimitTooLarge, HintTxInvalidSig, HintTxGasLimitTooSmall] at hreason
  · rw [h] at hreason
    simp [HintOK, HintBinaryTooLarge, HintBinaryNotDecodable, HintBlockTooManyTxs,
        HintBlockGasLimitTooLarge, HintTxInvalidSig, HintTxGasLimitTooSmall] at hreason
  · rcases isTxListValid_cases c v blockID txListBytes with
      ⟨_, hv⟩ | ⟨_, _, hv⟩ | ⟨txs, _, _, _, hv⟩ | ⟨txs, _, _, _, _, hv⟩ | ⟨txs, _, hdec, _, _, hv⟩
    · rw [h, hv] at hreason
      simp [HintOK, HintBinaryTooLarge, HintBinaryNotDecodable, HintBlockTooManyTxs,
        HintBlockGasLimitTooLarge, HintTxInvalidSig, HintTxGasLimitTooSmall] at hreason
    · rw [h, hv] at hreason
      simp [HintOK, HintBinaryTooLarge, HintBinaryNotDecodable, HintBlockTooManyTxs,
        HintBlockGasLimitTooLarge, HintTxInvalidSig, HintTxGasLimitTooSmall] at hreason
    · rw [h, hv] at hreason
      simp [HintOK, HintBinaryTooLarge, HintBinaryNotDecodable, HintBlockTooManyTxs,
        HintBlockGasLimitTooLarge, HintTxInvalidSig, HintTxGasLimitTooSmall] at hreason
    · rw [h, hv] at hreason
      simp [HintOK, HintBinaryTooLarge, HintBinaryNotDecodable, HintBlockTooManyTxs,
        HintBlockGasLimitTooLarge, HintTxInvalidSig, HintTxGasLimitTooSmall] at hreason
    · rcases checkTxsFrom_cases c v txs 0 with
        ⟨h0, _⟩ | ⟨k, t, hk, hpre, hbad, h5⟩ | ⟨k, t, hk, hpre, hs, hg, h6⟩
      · rw [h, hv, h0] at hreason
        simp [HintOK, HintBinaryTooLarge, HintBinaryNotDecodable, HintBlockTooManyTxs,
        HintBlockGasLimitTooLarge, HintTxInvalidSig, HintTxGasLimitTooSmall] at hreason
      · have hlt : k < txs.length := (List.getElem?_eq_some_iff.mp hk).1
        refine ⟨txListBytes, txs, k, t, hx, hdec, ?_, ?_, hlt, hk, hpre, ?_, ?_⟩
        · rw [h, hv, h5]; simp
        · rw [h, hv, h5]; simp
        · intro _; exact hbad
        · intro hr
          rw [h, hv, h5] at hr
          exact absurd hr h56
      · have hlt : k < txs.length := (List.getElem?_eq_some_iff.mp hk).1
        refine ⟨txListBytes, txs, k, t, hx, hdec, ?_, ?_, hlt, hk, hpre, ?_, ?_⟩
        · rw [h, hv, h6]; simp
        · rw [h, hv, h6]; simp
        · intro hr
          rw [h, hv, h6] at hr
          exact absurd hr.symm h56
        · intro _; exact ⟨hs, hg⟩

theorem ValidateTxList_per_tx_verdict_sound_witness :
    (ValidateTxList (testCodec unpackAll (.ok secondTooSmall)) scenarioValidator (some 5)
        [1, 2, 3]).2.1 = HintTxGasLimitTooSmall ∧
      ∃ (txListBytes : List Nat) (txs : List TestTx) (k : Nat) (t : TestTx),
        (testCodec unpackAll (.ok secondTooSmall)).UnpackTxListBytes [1, 2, 3] =
          .ok txListBytes ∧
        (testCodec unpackAll (.ok secondTooSmall)).DecodeBytes txListBytes = .ok txs ∧
        (ValidateTxList (testCodec unpackAll (.ok secondTooSmall)) scenarioValidator (some 5)
          [1, 2, 3]).2.2.1 = (k : Int) ∧
        0 ≤ (ValidateTxList (testCodec unpackAll (.ok secondTooSmall)) scenarioValidator
          (some 5) [1, 2, 3]).2.2.1 ∧
        k < txs.length ∧ txs[k]? = some t ∧
        (∀ tx ∈ txs.take k,
          senderOK (testCodec unpackAll (.ok secondTooSmall)) scenarioValidator tx ∧
            scenarioValidator.txMinGasLimit ≤
              (testCodec unpackAll (.ok secondTooSmall)).Gas tx) ∧
        ((ValidateTxList (testCodec unpackAll (.ok secondTooSmall)) scenarioValidator (some 5)
          [1, 2, 3]).2.1 = HintTxInvalidSig →
          ¬ senderOK (testCodec unpackAll (.ok secondTooSmall)) scenarioValidator t) ∧
        ((ValidateTxList (testCodec unpackAll (.ok secondTooSmall)) scenarioValidator (some 5)
          [1, 2, 3]).2.1 = HintTxGasLimitTooSmall →
          senderOK (testCodec unpackAll (.ok secondTooSmall)) scenarioValidator t ∧
            (testCodec unpackAll (.ok secondTooSmall)).Gas t <
              scenarioValidator.txMinGasLimit) :=
  ⟨by decide,
    ValidateTxList_per_tx_verdict_sound (testCodec unpackAll (.ok secondTooSmall))
      scenarioValidator (some 5) [1, 2, 3] (Or.inr (by decide))⟩

/-! ## Soundness of the list-level rejections -/

/-- The reason of a non-empty extracted list is the one `isTxListValid` computes. -/
theorem ValidateTxList_reason_of_nonempty {Tx Err : Type} (c : Codec Tx Err)
    (v : TxListValidator) (blockID : BigInt) (input txListBytes : List Nat)
    (hx : c.UnpackTxListBytes input = .ok txListBytes) (hne : txListBytes ≠ []) :
    (ValidateTxList c v blockID input).2.1 = (isTxListValid c v blockID txListBytes).1 := by
  have hlen : ¬ txListBytes.length = 0 := fun h => hne (List.length_eq_zero.mp h)
  simp only [ValidateTxList, hx, if_neg hlen]

/-- A size rejection means the length exceeds the byte limit, when the limit is below
`2 ^ 63`. -/
theorem ValidateTxList_too_large_sound_of_small_limit {Tx Err : Type} (c : Codec Tx Err)
    (v : TxListValidator) (blockID : BigInt) (input txListBytes : List Nat)
    (hx : c.UnpackTxListBytes input = .ok txListBytes)
    (hb : v.txListMaxBytes < 2 ^ 63)
    (hr : (ValidateTxList c v blockID input).2.1 = HintBinaryTooLarge) :
    txListBytes.length > v.txListMaxBytes := by
  rcases ValidateTxList_cases c v blockID input with
    ⟨err, _, h⟩ | ⟨_, h⟩ | ⟨bytes2, _, hx2, h⟩
  · rw [h] at hr; simp [HintBinaryNotDecodable, HintBinaryTooLarge] at hr
  · rw [h] at hr; simp [HintOK, HintBinaryTooLarge] at hr
  · rw [hx] at hx2
    cases hx2
    rw [h] at hr
    rcases isTxListValid_cases c v blockID txListBytes with
      ⟨h1, _⟩ | ⟨_, _, hv⟩ | ⟨txs, _, _, _, hv⟩ | ⟨txs, _, _, _, _, hv⟩ | ⟨txs, _, _, _, _, hv⟩
    · rw [toInt_of_lt _ hb] at h1
      omega
    · rw [hv] at hr; simp [HintBinaryNotDecodable, HintBinaryTooLarge] at hr
    · rw [hv] at hr; simp [HintBlockTooManyTxs, HintBinaryTooLarge] at hr
    · rw [hv] at hr; simp [HintBlockGasLimitTooLarge, HintBinaryTooLarge] at hr
    · rcases checkTxsFrom_cases c v txs 0 with
        ⟨h0, _⟩ | ⟨k, t, _, _, _, h5⟩ | ⟨k, t, _, _, _, _, h6⟩
      · rw [hv, h0] at hr; simp [HintOK, HintBinaryTooLarge] at hr
      · rw [hv, h5] at hr; simp [HintTxInvalidSig, HintBinaryTooLarge] at hr
      · rw [hv, h6] at hr; simp [HintTxGasLimitTooSmall, HintBinaryTooLarge] at hr

/-- A count rejection means the decoded list has more than `blockMaxTxs` transactions, when
the count limit is below `2 ^ 63`. -/
theorem ValidateTxList_too_many_sound_of_small_limit {Tx Err : Type} (c : Codec Tx Err)
    (v : TxListValidator) (blockID : BigInt) (input : List Nat)
    (ht : v.blockMaxTxs < 2 ^ 63)
    (hr : (ValidateTxList c v blockID input).2.1 = HintBlockTooManyTxs) :
    ∃ txListBytes txs, c.UnpackTxListBytes input = .ok txListBytes ∧
      c.DecodeBytes txListBytes = .ok txs ∧ txs.length > v.blockMaxTxs := by
  rcases ValidateTxList_cases c v blockID input with
    ⟨err, _, h⟩ | ⟨_, h⟩ | ⟨txListBytes, _, hx, h⟩
  · rw [h] at hr; simp [HintBinaryNotDecodable, HintBlockTooManyTxs] at hr
  · rw [h] at hr; simp [HintOK, HintBlockTooManyTxs] at hr
  · rw [h] at hr
    rcases isTxListValid_cases c v blockID txListBytes with
      ⟨_, hv⟩ | ⟨_, _, hv⟩ | ⟨txs, _, hdec, h2, _⟩ | ⟨txs, _, _, _, _, hv⟩ |
        ⟨txs, _, _, _, _, hv⟩
    · rw [hv] at hr; simp [HintBinaryTooLarge, HintBlockTooManyTxs] at hr
    · rw [hv] at hr; simp [HintBinaryNotDecodable, HintBlockTooManyTxs] at hr
    · rw [toInt_of_lt _ ht] at h2
      exact ⟨txListBytes, txs, hx, hdec, by omega⟩
    · rw [hv] at hr; simp [HintBlockGasLimitTooLarge, HintBlockTooManyTxs] at hr
    · rcases checkTxsFrom_cases c v txs 0 with
        ⟨h0, _⟩ | ⟨k, t, _, _, _, h5⟩ | ⟨k, t, _, _, _, _, h6⟩
      · rw [hv, h0] at hr; simp [HintOK, HintBlockTooManyTxs] at hr
      · rw [hv, h5] at hr; simp [HintTxInvalidSig, HintBlockTooManyTxs] at hr
      · rw [hv, h6] at hr; simp [HintTxGasLimitTooSmall, HintBlockTooManyTxs] at hr

/-- C21: the aggregate-gas rejection is sound with the 64-bit accumulator: if `ValidateTxList`
returns `HintBlockGasLimitTooLarge`, the extracted bytes decode to a list whose exact sum of gas
limits is strictly greater than `blockMaxGasLimit`. -/
theorem ValidateTxList_gas_too_large_sound {Tx Err : Type} (c : Codec Tx Err)
    (v : TxListValidator) (blockID : BigInt) (input : List Nat)
    (hr : (ValidateTxList c v blockID input).2.1 = HintBlockGasLimitTooLarge) :
    ∃ txListBytes txs, c.UnpackTxListBytes input = .ok txListBytes ∧
      c.DecodeBytes txListBytes = .ok txs ∧ exactGasSum c txs > v.blockMaxGasLimit := by
  rcases ValidateTxList_cases c v blockID input with
    ⟨err, _, h⟩ | ⟨_, h⟩ | ⟨txListBytes, _, hx, h⟩
  · rw [h] at hr; simp [HintBinaryNotDecodable, HintBlockGasLimitTooLarge] at hr
  · rw [h] at hr; simp [HintOK, HintBlockGasLimitTooLarge] at hr
  · rw [h] at hr
    rcases isTxListValid_cases c v blockID txListBytes with
      ⟨_, hv⟩ | ⟨_, _, hv⟩ | ⟨txs, _, _, _, hv⟩ | ⟨txs, _, hdec, _, h3, _⟩ |
        ⟨txs, _, _, _, _, hv⟩
    · rw [hv] at hr; simp [HintBinaryTooLarge, HintBlockGasLimitTooLarge] at hr
    · rw [hv] at hr; simp [HintBinaryNotDecodable, HintBlockGasLimitTooLarge] at hr
    · rw [hv] at hr; simp [HintBlockTooManyTxs, HintBlockGasLimitTooLarge] at hr
    · have hle := sumGasLimit_le_exact c txs
      exact ⟨txListBytes, txs, hx, hdec, by omega⟩
    · rcases checkTxsFrom_cases c v txs 0 with
        ⟨h0, _⟩ | ⟨k, t, _, _, _, h5⟩ | ⟨k, t, _, _, _, _, h6⟩
      · rw [hv, h0] at hr; simp [HintOK, HintBlockGasLimitTooLarge] at hr
      · rw [hv, h5] at hr; simp [HintTxInvalidSig, HintBlockGasLimitTooLarge] at hr
      · rw [hv, h6] at hr; simp [HintTxGasLimitTooSmall, HintBlockGasLimitTooLarge] at hr

theorem ValidateTxList_gas_too_large_sound_witness :
    (ValidateTxList (testCodec unpackAll (.ok heavyTxs)) scenarioValidator (some 5)
        [1, 2, 3]).2.1 = HintBlockGasLimitTooLarge ∧
      ∃ txListBytes txs,
        (testCodec unpackAll (.ok heavyTxs)).UnpackTxListBytes [1, 2, 3] = .ok txListBytes ∧
        (testCodec unpackAll (.ok heavyTxs)).DecodeBytes txListBytes = .ok txs ∧
        exactGasSum (testCodec unpackAll (.ok heavyTxs)) txs >
          scenarioValidator.blockMaxGasLimit :=
  ⟨by decide,
    ValidateTxList_gas_too_large_sound (testCodec unpackAll (.ok heavyTxs)) scenarioValidator
      (some 5) [1, 2, 3] (by decide)⟩

/-- C22: when the exact sum of the decoded gas limits is below `2 ^ 64`, the aggregate-gas
stage is exact: for a list that passes the size, decode and count stages, the reason is
`HintBlockGasLimitTooLarge` if and only if the exact sum is strictly greater than
`blockMaxGasLimit`; a sum equal to the limit is not rejected by this stage. -/
theorem ValidateTxList_gas_stage_exact {Tx Err : Type} (c : Codec Tx Err)
    (v : TxListValidator) (blockID : BigInt) (input txListBytes : List Nat) (txs : List Tx)
    (hx : c.UnpackTxListBytes input = .ok txListBytes) (hne : txListBytes ≠ [])
    (hsize : ¬ ((txListBytes.length : Int) > toInt v.txListMaxBytes))
    (hdec : c.DecodeBytes txListBytes = .ok txs)
    (hcount : ¬ ((txs.length : Int) > toInt v.blockMaxTxs))
    (hnowrap : exactGasSum c txs < 2 ^ 64) :
    (ValidateTxList c v blockID input).2.1 = HintBlockGasLimitTooLarge ↔
      exactGasSum c txs > v.blockMaxGasLimit := by
  have hsum : sumGasLimit c txs = exactGasSum c txs := by
    rw [sumGasLimit_eq_mod, Nat.mod_eq_of_lt hnowrap]
  rw [ValidateTxList_reason_of_nonempty c v blockID input txListBytes hx hne]
  constructor
  · intro hr
    by_contra hle
    have hgas : ¬ (sumGasLimit c txs > v.blockMaxGasLimit) := by rw [hsum]; exact hle
    have hv : isTxListValid c v blockID txListBytes = checkTxsFrom c v 0 txs := by
      simp only [isTxListValid, if_neg hsize, hdec, if_neg hcount, if_neg hgas]
    rw [hv] at hr
    rcases checkTxsFrom_cases c v txs 0 with
      ⟨h0, _⟩ | ⟨k, t, _, _, _, h5⟩ | ⟨k, t, _, _, _, _, h6⟩
    · rw [h0] at hr; simp [HintOK, HintBlockGasLimitTooLarge] at hr
    · rw [h5] at hr; simp [HintTxInvalidSig, HintBlockGasLimitTooLarge] at hr
    · rw [h6] at hr; simp [HintTxGasLimitTooSmall, HintBlockGasLimitTooLarge] at hr
  · intro hgt
    have hgas : sumGasLimit c txs > v.blockMaxGasLimit := by rw [hsum]; exact hgt
    simp only [isTxListValid, if_neg hsize, hdec, if_neg hcount, if_pos hgas]

theorem ValidateTxList_gas_stage_exact_witness :
    exactGasSum (testCodec unpackAll (.ok exactLimitTxs)) exactLimitTxs =
        scenarioValidator.blockMaxGasLimit ∧
      (ValidateTxList (testCodec unpackAll (.ok exactLimitTxs)) scenarioValidator (some 5)
        [1, 2, 3]).2.1 = HintOK ∧
      ((ValidateTxList (testCodec unpackAll (.ok exactLimitTxs)) scenarioValidator (some 5)
        [1, 2, 3]).2.1 = HintBlockGasLimitTooLarge ↔
        exactGasSum (testCodec unpackAll (.ok exactLimitTxs)) exactLimitTxs >
          scenarioValidator.blockMaxGasLimit) :=
  ⟨by decide, by decide,
    ValidateTxList_gas_stage_exact (testCodec unpackAll (.ok exactLimitTxs)) scenarioValidator
      (some 5) [1, 2, 3] [1, 2, 3] exactLimitTxs rfl (by decide) (by decide) rfl (by decide)
      (by decide)⟩

/-- C23: a size rejection is to mean that the length exceeds `txListMaxBytes`, for every
`uint64` value of the limit. With the limit `2 ^ 64 - 1` a 3-byte list is answered with
`HintBinaryTooLarge` although 3 is not greater than the limit: `int(v.txListMaxBytes)` is
`-1` there. -/
theorem size_rejection_unsound_at_max_uint64 :
    maxByteLimitValidator.isUint64 ∧
      (testCodec unpackAll (.ok scenarioTxs)).UnpackTxListBytes [1, 2, 3] = .ok [1, 2, 3] ∧
      toInt maxByteLimitValidator.txListMaxBytes = -1 ∧
      (ValidateTxList (testCodec unpackAll (.ok scenarioTxs)) maxByteLimitValidator (some 5)
        [1, 2, 3]).2.1 = HintBinaryTooLarge ∧
      ¬ ([1, 2, 3].length > maxByteLimitValidator.txListMaxBytes) := by
  refine ⟨by decide, rfl, by decide, by decide, by decide⟩

/-- C24: a count rejection is to mean that the decoded list has more than `blockMaxTxs`
transactions, for every `uint64` value of the limit. With the limit `2 ^ 63` the scenario's list
of 2 transactions is answered with `HintBlockTooManyTxs` although 2 is not greater than the
limit: `int(v.blockMaxTxs)` is `-2 ^ 63` there. -/
theorem count_rejection_unsound_at_two_pow_63 :
    largeCountLimitValidator.isUint64 ∧
      (testCodec unpackAll (.ok scenarioTxs)).UnpackTxListBytes [1, 2, 3] = .ok [1, 2, 3] ∧
      (testCodec unpackAll (.ok scenarioTxs)).DecodeBytes [1, 2, 3] = .ok scenarioTxs ∧
      toInt largeCountLimitValidator.blockMaxTxs = -(2 ^ 63) ∧
      (ValidateTxList (testCodec unpackAll (.ok scenarioTxs)) largeCountLimitValidator (some 5)
        [1, 2, 3]).2.1 = HintBlockTooManyTxs ∧
      ¬ (scenarioTxs.length > largeCountLimitValidator.blockMaxTxs) := by
  refine ⟨by decide, rfl, rfl, by decide, by decide, by decide⟩

end TxListValidation
